import Mathlib

/-!
Shallow embedding of the causalization and code-generation engine of
libcellml (src/generator.cpp), together with proofs about its behaviour.

Machine integers (size_t) are modelled as natural numbers reduced modulo
WORD = 2 ^ 64 at every arithmetic step that the C++ code performs on them.
Shared mutable variable records are modelled as a store (a list of records)
indexed by position; equations reference variables through these positions.
-/

set_option autoImplicit false

namespace LibCellML

/-- The size of the size_t value space, 2 ^ 64. -/
def WORD : Nat := 2 ^ 64

/-- MAX_SIZE_T, i.e. std::numeric_limits of size_t max, 2 ^ 64 - 1. -/
def MAX_SIZE_T : Nat := WORD - 1

/-- GeneratorVariableImpl::Type: the role of a variable record. -/
inductive VarType where
  | UNKNOWN
  | SHOULD_BE_STATE
  | VARIABLE_OF_INTEGRATION
  | STATE
  | CONSTANT
  | COMPUTED_TRUE_CONSTANT
  | COMPUTED_VARIABLE_BASED_CONSTANT
  | ALGEBRAIC
deriving DecidableEq, Repr, Inhabited

/-- GeneratorVariableImpl: a variable record of the registry. The C++
record holds a pointer to the model variable; of that variable only its
initial-value text matters to this engine, so the record carries the
text directly (initialValue models mVariable->initialValue()). -/
structure GeneratorVariableImpl where
  mType : VarType := .UNKNOWN
  mIndex : Nat := MAX_SIZE_T
  mComputed : Bool := false
  initialValue : String := ""
deriving DecidableEq, Repr, Inhabited

namespace GeneratorVariableImpl

/-- GeneratorVariableImpl::setVariable: store the (new) underlying
variable and, when it carries a non-empty initial value, upgrade the
role: UNKNOWN becomes CONSTANT, SHOULD_BE_STATE becomes STATE. -/
def setVariable (v : GeneratorVariableImpl) (initialValue : String) :
    GeneratorVariableImpl :=
  let v := { v with initialValue := initialValue }
  if initialValue ≠ "" then
    if v.mType = .UNKNOWN then
      { v with mType := .CONSTANT }
    else if v.mType = .SHOULD_BE_STATE then
      { v with mType := .STATE }
    else v
  else v

/-- GeneratorVariableImpl::makeVariableOfIntegration: set the role to
VARIABLE_OF_INTEGRATION unconditionally. -/
def makeVariableOfIntegration (v : GeneratorVariableImpl) :
    GeneratorVariableImpl :=
  { v with mType := .VARIABLE_OF_INTEGRATION }

/-- GeneratorVariableImpl::makeState: on seeing the variable as an ODE
dependent, UNKNOWN becomes SHOULD_BE_STATE and CONSTANT becomes STATE;
every other role is left unchanged. -/
def makeState (v : GeneratorVariableImpl) : GeneratorVariableImpl :=
  if v.mType = .UNKNOWN then
    { v with mType := .SHOULD_BE_STATE }
  else if v.mType = .CONSTANT then
    { v with mType := .STATE }
  else v

end GeneratorVariableImpl

/-- Read the variable record at position id of the store (the C++ code
dereferences a valid shared pointer; out-of-range positions yield the
default record and are excluded by the well-formedness hypotheses). -/
def getVar (store : List GeneratorVariableImpl) (id : Nat) :
    GeneratorVariableImpl :=
  store.getD id default

/-- GeneratorEquationImpl::Type: the kind of an equation. -/
inductive EqType where
  | UNKNOWN
  | TRUE_CONSTANT
  | VARIABLE_BASED_CONSTANT
  | RATE
  | ALGEBRAIC
deriving DecidableEq, Repr, Inhabited

/-- GeneratorEquationAstImpl::Type: the tag of an expression-tree node. -/
inductive AstType where
  | EQ | EQEQ | NEQ | LT | LEQ | GT | GEQ
  | PLUS | MINUS | TIMES | DIVIDE | POWER | ROOT
  | ABS | EXP | LN | LOG | CEILING | FLOOR | FACTORIAL
  | AND | OR | XOR | NOT
  | DIFF
  | MIN | MAX | GCD | LCM
  | SIN | COS | TAN | SEC | CSC | COT
  | SINH | COSH | TANH | SECH | CSCH | COTH
  | ASIN | ACOS | ATAN | ASEC | ACSC | ACOT
  | ASINH | ACOSH | ATANH | ASECH | ACSCH | ACOTH
  | REM
  | PIECEWISE | PIECE | OTHERWISE
  | CN | CI
  | DEGREE | LOGBASE | BVAR
  | TRUE | FALSE | E | PI | INF | NAN
deriving DecidableEq, Repr, Inhabited

/-- GeneratorEquationAstImpl: an expression-tree node, with a tag, a
literal text value (CN), a referenced variable (CI, by store position)
and up to two children; nil models a null child pointer. The C++ parent
back-pointer is not stored: the renderer threads the parent tag instead. -/
inductive GeneratorEquationAstImpl where
  | nil
  | node (mType : AstType) (mValue : String) (mVariable : Nat)
      (mLeft mRight : GeneratorEquationAstImpl)
deriving DecidableEq, Repr, Inhabited

/-- GeneratorEquationImpl: one record per equation: its tree, the plain
and ODE variable-reference sets (store positions), the two monotone
constancy flags, the assigned kind and the assigned order (0 until
resolved). -/
structure GeneratorEquationImpl where
  mType : EqType := .UNKNOWN
  mOrder : Nat := 0
  mAst : GeneratorEquationAstImpl := .nil
  mVariables : List Nat := []
  mOdeVariables : List Nat := []
  mTrulyConstant : Bool := true
  mVariableBasedConstant : Bool := true
deriving DecidableEq, Repr, Inhabited

namespace GeneratorEquationImpl

/-- GeneratorEquationImpl::containsNonTrueConstantVariables: does the
reference list hold a variable whose role is no longer UNKNOWN? -/
def containsNonTrueConstantVariables (store : List GeneratorVariableImpl)
    (vars : List Nat) : Bool :=
  vars.any fun id => decide ((getVar store id).mType ≠ .UNKNOWN)

/-- GeneratorEquationImpl::containsNonConstantVariables: does the
reference list hold a variable whose role is neither UNKNOWN nor
CONSTANT? -/
def containsNonConstantVariables (store : List GeneratorVariableImpl)
    (vars : List Nat) : Bool :=
  vars.any fun id =>
    decide ((getVar store id).mType ≠ .UNKNOWN ∧
      (getVar store id).mType ≠ .CONSTANT)

/-- GeneratorEquationImpl::knownVariable: computed, or the variable of
integration, or a state, or a constant. -/
def knownVariable (store : List GeneratorVariableImpl) (id : Nat) : Bool :=
  (getVar store id).mComputed
    || decide ((getVar store id).mType = .VARIABLE_OF_INTEGRATION)
    || decide ((getVar store id).mType = .STATE)
    || decide ((getVar store id).mType = .CONSTANT)

/-- GeneratorEquationImpl::knownOdeVariable: computed or the variable of
integration. -/
def knownOdeVariable (store : List GeneratorVariableImpl) (id : Nat) : Bool :=
  (getVar store id).mComputed
    || decide ((getVar store id).mType = .VARIABLE_OF_INTEGRATION)

/-- The front of the single-member reference set when the plain and ODE
sets together hold exactly one reference (mVariables.front() or
mOdeVariables.front() in the C++ code). -/
def frontRef (eq : GeneratorEquationImpl) : Nat :=
  if eq.mVariables.length = 1 then eq.mVariables.headD 0
  else eq.mOdeVariables.headD 0

end GeneratorEquationImpl

/-- One recorded write of an index into a variable record: the store
position written, whether the value was drawn from the state-index
counter, and the value written. This is ghost instrumentation: the
engine only ever appends to the log, and no computation reads it. -/
structure IdxWrite where
  varId : Nat
  isState : Bool
  value : Nat
deriving DecidableEq, Repr, Inhabited

/-- The mutable context threaded through GeneratorEquationImpl::check:
the variable store and the three size_t counters passed by reference,
plus the ghost log of index writes. -/
structure CausalState where
  store : List GeneratorVariableImpl
  equationOrder : Nat
  stateIndex : Nat
  variableIndex : Nat
  log : List IdxWrite := []
deriving DecidableEq, Repr, Inhabited

namespace GeneratorEquationImpl

/-- GeneratorEquationImpl::check (generator.cpp lines 417-507): skip an
already-ordered equation and the overconstraint configuration; downgrade
the two constancy flags; remove known references; when exactly one
reference remains, classify a still-UNKNOWN variable from the flags,
then, when the variable is a state, computed constant or algebraic
variable, assign it the next index, mark it computed, set the equation
kind and give the equation the next order number. -/
def check (eq : GeneratorEquationImpl) (s : CausalState) :
    GeneratorEquationImpl × CausalState × Bool :=
  if eq.mOrder ≠ 0 then (eq, s, false)
  else if eq.mVariables.length + eq.mOdeVariables.length = 1 ∧
      (getVar s.store eq.frontRef).mType ≠ .UNKNOWN then (eq, s, false)
  else
    let mTrulyConstant := eq.mTrulyConstant
      && !containsNonTrueConstantVariables s.store eq.mVariables
      && !containsNonTrueConstantVariables s.store eq.mOdeVariables
    let mVariableBasedConstant := eq.mVariableBasedConstant
      && !containsNonConstantVariables s.store eq.mVariables
      && !containsNonConstantVariables s.store eq.mOdeVariables
    let mVars := eq.mVariables.filter fun id => !knownVariable s.store id
    let mOde := eq.mOdeVariables.filter fun id => !knownOdeVariable s.store id
    let eq := { eq with
      mTrulyConstant := mTrulyConstant
      mVariableBasedConstant := mVariableBasedConstant
      mVariables := mVars
      mOdeVariables := mOde }
    if mVars.length + mOde.length = 1 then
      let v := if mVars.length = 1 then mVars.headD 0 else mOde.headD 0
      let gv := getVar s.store v
      let gv :=
        if gv.mType = .UNKNOWN then
          { gv with mType :=
              if eq.mTrulyConstant then .COMPUTED_TRUE_CONSTANT
              else if eq.mVariableBasedConstant then
                .COMPUTED_VARIABLE_BASED_CONSTANT
              else .ALGEBRAIC }
        else gv
      if gv.mType = .STATE ∨ gv.mType = .COMPUTED_TRUE_CONSTANT ∨
          gv.mType = .COMPUTED_VARIABLE_BASED_CONSTANT ∨
          gv.mType = .ALGEBRAIC then
        let isState := decide (gv.mType = .STATE)
        let newIdx :=
          if isState then (s.stateIndex + 1) % WORD
          else (s.variableIndex + 1) % WORD
        let gv := { gv with mIndex := newIdx, mComputed := true }
        let eq := { eq with
          mType :=
            if gv.mType = .STATE then .RATE
            else if gv.mType = .COMPUTED_TRUE_CONSTANT then .TRUE_CONSTANT
            else if gv.mType = .COMPUTED_VARIABLE_BASED_CONSTANT then
              .VARIABLE_BASED_CONSTANT
            else .ALGEBRAIC
          mOrder := (s.equationOrder + 1) % WORD }
        let s := { s with
          store := s.store.set v gv
          equationOrder := (s.equationOrder + 1) % WORD
          stateIndex := if isState then newIdx else s.stateIndex
          variableIndex := if isState then s.variableIndex else newIdx
          log := s.log ++ [⟨v, isState, newIdx⟩] }
        (eq, s, true)
      else (eq, s, false)
    else (eq, s, false)

end GeneratorEquationImpl

/-- One pass of the causalization fixpoint (the inner for loop of
Generator::GeneratorImpl::processModel, lines 1238-1241): run check on
every equation in document order, threading the shared state, and report
whether any check was relevant. -/
def runPassAux : List GeneratorEquationImpl → CausalState →
    List GeneratorEquationImpl × CausalState × Bool
  | [], s => ([], s, false)
  | e :: es, s =>
    let (e', s', r) := e.check s
    let (es', s'', r') := runPassAux es s'
    (e' :: es', s'', r || r')

/-- The causalization fixpoint loop (the outer for (;;) of processModel,
lines 1235-1246), with explicit fuel: repeat the pass until it reports no
relevant check. processModelCore supplies fuel that is proved sufficient
by the termination development below, so this
equals the unbounded C++ loop. -/
def causalLoop : Nat → List GeneratorEquationImpl → CausalState →
    List GeneratorEquationImpl × CausalState
  | 0, eqs, s => (eqs, s)
  | fuel + 1, eqs, s =>
    let (eqs', s', relevant) := runPassAux eqs s
    if relevant then causalLoop fuel eqs' s' else (eqs', s')

/-- The constant-index loop of processModel (lines 1220-1226): walk the
variable records in order and give each plain CONSTANT variable the next
value of the variable-index counter. base is the store position of the
first record of the remaining list; the third component is the ghost log
of the index writes made. -/
def constIndexPass (base : Nat) :
    List GeneratorVariableImpl → Nat →
    List GeneratorVariableImpl × Nat × List IdxWrite
  | [], variableIndex => ([], variableIndex, [])
  | v :: vs, variableIndex =>
    if v.mType = .CONSTANT then
      let idx := (variableIndex + 1) % WORD
      let (vs', variableIndex', log') := constIndexPass (base + 1) vs idx
      ({ v with mIndex := idx } :: vs', variableIndex',
        ⟨base, false, idx⟩ :: log')
    else
      let (vs', variableIndex', log') := constIndexPass (base + 1) vs variableIndex
      (v :: vs', variableIndex', log')

/-- Per-run state of the engine after the component walk: the variable
store, the equation list, the number of recorded errors, and the ghost
log of index writes. -/
structure ProcState where
  mVariables : List GeneratorVariableImpl
  mEquations : List GeneratorEquationImpl
  errorCount : Nat := 0
  log : List IdxWrite := []
deriving DecidableEq, Repr, Inhabited

/-- The terminal-validity walk of processModel (lines 1251-1287): every
variable still UNKNOWN or SHOULD_BE_STATE is reported as one error
(the error texts themselves are irrelevant to the claims and are
modelled by the error count alone). -/
def validateVariables (s : ProcState) : ProcState :=
  { s with errorCount := s.errorCount +
      s.mVariables.countP fun v =>
        decide (v.mType = .UNKNOWN ∨ v.mType = .SHOULD_BE_STATE) }

/-- Generator::GeneratorImpl::processModel, lines 1218-1287: the part of
processModel that follows the component walk and the AST walk. It
receives the populated store, equation list and error count; assigns
constant indices unconditionally; when no error has been recorded, runs
the causalization fixpoint; and when no error has been recorded,
validates every variable's terminal role. -/
def processModelCore (s : ProcState) : ProcState :=
  let (vars', variableIndex, clog) :=
    constIndexPass 0 s.mVariables MAX_SIZE_T
  let s := { s with mVariables := vars', log := s.log ++ clog }
  let s : ProcState :=
    if s.errorCount = 0 then
      let cs : CausalState :=
        { store := s.mVariables
          equationOrder := 0
          stateIndex := MAX_SIZE_T
          variableIndex := variableIndex
          log := s.log }
      let (eqs', cs') := causalLoop (s.mEquations.length + 1) s.mEquations cs
      { s with mVariables := cs'.store, mEquations := eqs', log := cs'.log }
    else s
  if s.errorCount = 0 then validateVariables s else s

/-- GeneratorProfile (external collaborator, consumed read-only): the
target-syntax strings and capability flags used by the Code Emitter. -/
structure GeneratorProfile where
  eqString : String := ""
  eqEqString : String := ""
  neqString : String := ""
  ltString : String := ""
  leqString : String := ""
  gtString : String := ""
  geqString : String := ""
  plusString : String := ""
  minusString : String := ""
  timesString : String := ""
  divideString : String := ""
  powerString : String := ""
  squareRootString : String := ""
  squareString : String := ""
  absoluteValueString : String := ""
  exponentialString : String := ""
  napierianLogarithmString : String := ""
  commonLogarithmString : String := ""
  ceilingString : String := ""
  floorString : String := ""
  factorialString : String := ""
  andString : String := ""
  orString : String := ""
  xorString : String := ""
  notString : String := ""
  minString : String := ""
  maxString : String := ""
  gcdString : String := ""
  lcmString : String := ""
  remString : String := ""
  sinString : String := ""
  cosString : String := ""
  tanString : String := ""
  secString : String := ""
  cscString : String := ""
  cotString : String := ""
  sinhString : String := ""
  coshString : String := ""
  tanhString : String := ""
  sechString : String := ""
  cschString : String := ""
  cothString : String := ""
  asinString : String := ""
  acosString : String := ""
  atanString : String := ""
  asecString : String := ""
  acscString : String := ""
  acotString : String := ""
  asinhString : String := ""
  acoshString : String := ""
  atanhString : String := ""
  asechString : String := ""
  acschString : String := ""
  acothString : String := ""
  trueString : String := ""
  falseString : String := ""
  eString : String := ""
  piString : String := ""
  infString : String := ""
  nanString : String := ""
  conditionalOperatorIfString : String := ""
  conditionalOperatorElseString : String := ""
  piecewiseIfString : String := ""
  piecewiseElseString : String := ""
  variableOfIntegrationString : String := ""
  statesArrayString : String := ""
  ratesArrayString : String := ""
  variablesArrayString : String := ""
  commandSeparatorString : String := ""
  hasPowerOperator : Bool := false
  hasConditionalOperator : Bool := false
  hasXorOperator : Bool := false
deriving DecidableEq, Repr, Inhabited

namespace GeneratorEquationAstImpl

/-- The tag of a node; none for a null pointer. -/
def ty? : GeneratorEquationAstImpl → Option AstType
  | nil => none
  | node t _ _ _ _ => some t

/-- The left child of a node (nil for a null pointer). -/
def left : GeneratorEquationAstImpl → GeneratorEquationAstImpl
  | nil => nil
  | node _ _ _ l _ => l

/-- The right child of a node (nil for a null pointer). -/
def right : GeneratorEquationAstImpl → GeneratorEquationAstImpl
  | nil => nil
  | node _ _ _ _ r => r

end GeneratorEquationAstImpl

/-- Structural size of an expression tree, used as the termination
measure of the mutually recursive renderer. -/
def GeneratorEquationAstImpl.size : GeneratorEquationAstImpl → Nat
  | .nil => 0
  | .node _ _ _ l r => l.size + r.size + 1

/-- Generator::GeneratorImpl::isRelationalOperator. -/
def isRelationalOperator : GeneratorEquationAstImpl → Bool
  | .node t _ _ _ _ =>
    decide (t = .EQEQ ∨ t = .NEQ ∨ t = .LT ∨ t = .LEQ ∨ t = .GT ∨ t = .GEQ)
  | .nil => false

/-- Generator::GeneratorImpl::isPlusOperator. -/
def isPlusOperator : GeneratorEquationAstImpl → Bool
  | .node t _ _ _ _ => decide (t = .PLUS)
  | .nil => false

/-- Generator::GeneratorImpl::isMinusOperator. -/
def isMinusOperator : GeneratorEquationAstImpl → Bool
  | .node t _ _ _ _ => decide (t = .MINUS)
  | .nil => false

/-- Generator::GeneratorImpl::isTimesOperator. -/
def isTimesOperator : GeneratorEquationAstImpl → Bool
  | .node t _ _ _ _ => decide (t = .TIMES)
  | .nil => false

/-- Generator::GeneratorImpl::isDivideOperator. -/
def isDivideOperator : GeneratorEquationAstImpl → Bool
  | .node t _ _ _ _ => decide (t = .DIVIDE)
  | .nil => false

/-- Generator::GeneratorImpl::isPowerOperator. -/
def isPowerOperator : GeneratorEquationAstImpl → Bool
  | .node t _ _ _ _ => decide (t = .POWER)
  | .nil => false

/-- Generator::GeneratorImpl::isRootOperator. -/
def isRootOperator : GeneratorEquationAstImpl → Bool
  | .node t _ _ _ _ => decide (t = .ROOT)
  | .nil => false

/-- Generator::GeneratorImpl::isAndOperator. -/
def isAndOperator : GeneratorEquationAstImpl → Bool
  | .node t _ _ _ _ => decide (t = .AND)
  | .nil => false

/-- Generator::GeneratorImpl::isOrOperator. -/
def isOrOperator : GeneratorEquationAstImpl → Bool
  | .node t _ _ _ _ => decide (t = .OR)
  | .nil => false

/-- Generator::GeneratorImpl::isXorOperator. -/
def isXorOperator : GeneratorEquationAstImpl → Bool
  | .node t _ _ _ _ => decide (t = .XOR)
  | .nil => false

/-- Generator::GeneratorImpl::isLogicalOrBitwiseOperator: AND, OR, XOR
(NOT is unary and deliberately excluded). -/
def isLogicalOrBitwiseOperator : GeneratorEquationAstImpl → Bool
  | .node t _ _ _ _ => decide (t = .AND ∨ t = .OR ∨ t = .XOR)
  | .nil => false

/-- Generator::GeneratorImpl::isPiecewiseStatement. -/
def isPiecewiseStatement : GeneratorEquationAstImpl → Bool
  | .node t _ _ _ _ => decide (t = .PIECEWISE)
  | .nil => false

/-- Digit-list accumulator for the modelled numeric parse. -/
def digitsVal : List Char → Nat → Option Nat
  | [], acc => some acc
  | c :: cs, acc =>
    if c.isDigit then digitsVal cs (acc * 10 + (c.toNat - 48)) else none

/-- The value of a non-empty all-digit character list. -/
def digitsToNat? (cs : List Char) : Option Nat :=
  if cs.isEmpty then none else digitsVal cs 0

/-- Modelled from the spec: convertToDouble (utilities.cpp, which is not
under src/src) parses a numeric literal. The Code Emitter only uses it
to test a rendered exponent, degree or base against 0.5, 2.0 or 10.0, so
it is modelled as an exact parse of plain decimal literals with an
optional sign, returning the value n / 10 ^ d as the pair (n, d); any
other text yields none. -/
def convertToDouble? (s : String) : Option (Int × Nat) :=
  let signBody : Int × List Char :=
    match s.data with
    | '-' :: rest => (-1, rest)
    | '+' :: rest => (1, rest)
    | cs => (1, cs)
  let sign := signBody.1
  let body := signBody.2
  let ip := body.takeWhile fun c => c != '.'
  match body.drop ip.length with
  | [] => (digitsToNat? ip).map fun n => (sign * n, 0)
  | _ :: fp =>
    if fp.contains '.' then none
    else
      match digitsToNat? ip, digitsToNat? fp with
      | some i, some f =>
        some (sign * ((i : Int) * (10 : Int) ^ fp.length + f), fp.length)
      | _, _ => none

/-- Modelled from the spec: isEqual (utilities.cpp, not under src/src)
compares the parsed value n / 10 ^ d against the reference p / 10 ^ e;
an unparsable text (for which the C++ code could never equal the
reference literal) compares unequal. -/
def isEqual (x? : Option (Int × Nat)) (y : Int × Nat) : Bool :=
  match x? with
  | some x => decide (x.1 * (10 : Int) ^ y.2 = y.1 * (10 : Int) ^ x.2)
  | none => false

/-- Does the character list start with the given token? -/
def listStartsWith : List Char → List Char → Bool
  | _, [] => true
  | [], _ :: _ => false
  | a :: as, b :: bs => a == b && listStartsWith as bs

/-- Replace the first occurrence of a token inside a character list. -/
def replaceChars (tok subst : List Char) : List Char → List Char
  | [] => []
  | c :: rest =>
    if listStartsWith (c :: rest) tok then
      subst ++ (c :: rest).drop tok.length
    else c :: replaceChars tok subst rest

/-- The file-local replace helper of generator.cpp (lines 1290-1293):
replace the first occurrence of a token inside a string (the callers
always pass templates that contain the token). -/
def replace (s tok subst : String) : String :=
  ⟨replaceChars tok.data subst.data s.data⟩

/-- Generator::GeneratorImpl::generateVariableName: the variable of
integration renders as its dedicated symbol; a STATE variable renders
into the rates array when the reference sits directly under a DIFF node,
else the states array; every other variable renders into the variables
array; always at the record's index. -/
def generateVariableName (p : GeneratorProfile)
    (store : List GeneratorVariableImpl) (id : Nat) (underDiff : Bool) :
    String :=
  let gv := getVar store id
  if gv.mType = .VARIABLE_OF_INTEGRATION then
    p.variableOfIntegrationString
  else
    let arrayName :=
      if gv.mType = .STATE then
        if underDiff then p.ratesArrayString else p.statesArrayString
      else p.variablesArrayString
    arrayName ++ "[" ++ toString gv.mIndex ++ "]"

/-- Generator::GeneratorImpl::generatePiecewiseIfCode. -/
def generatePiecewiseIfCode (p : GeneratorProfile)
    (condition value : String) : String :=
  replace
    (replace
      (if p.hasConditionalOperator then p.conditionalOperatorIfString
       else p.piecewiseIfString)
      ("#cond") condition)
    ("#if") value

/-- Generator::GeneratorImpl::generatePiecewiseElseCode. -/
def generatePiecewiseElseCode (p : GeneratorProfile) (value : String) :
    String :=
  replace
    (if p.hasConditionalOperator then p.conditionalOperatorElseString
     else p.piecewiseElseString)
    ("#else") value

/-- The parenthesization decision of
Generator::GeneratorImpl::generateOperatorCode (lines 1391-1686),
factored over the already-rendered sides: parenthesize each side
according to the precedence of its own top operator relative to the
parent operator, transcribed branch by branch, including the power
branch that tests isMinusOperator on the left sibling when deciding the
right side. generateOperatorCode below composes this with the rendering
of the two sides. -/
def applyOperatorParens (p : GeneratorProfile) (op : String)
    (ast : GeneratorEquationAstImpl) (left right : String) : String :=
  let l := ast.left
  let r := ast.right
  if isPlusOperator ast then
    let left :=
      if isRelationalOperator l || isLogicalOrBitwiseOperator l ||
          isPiecewiseStatement l then "(" ++ left ++ ")" else left
    let right :=
      if isRelationalOperator r || isLogicalOrBitwiseOperator r ||
          isPiecewiseStatement r then "(" ++ right ++ ")" else right
    left ++ op ++ right
  else if isMinusOperator ast then
    let left :=
      if isRelationalOperator l || isLogicalOrBitwiseOperator l ||
          isPiecewiseStatement l then "(" ++ left ++ ")" else left
    let right :=
      if isRelationalOperator r || isMinusOperator r ||
          isLogicalOrBitwiseOperator r || isPiecewiseStatement r then
        "(" ++ right ++ ")"
      else if isPlusOperator r then
        if r.right ≠ .nil then "(" ++ right ++ ")" else right
      else right
    left ++ op ++ right
  else if isTimesOperator ast then
    let left :=
      if isRelationalOperator l || isLogicalOrBitwiseOperator l ||
          isPiecewiseStatement l then "(" ++ left ++ ")"
      else if isPlusOperator l || isMinusOperator l then
        if l.right ≠ .nil then "(" ++ left ++ ")" else left
      else left
    let right :=
      if isRelationalOperator r || isLogicalOrBitwiseOperator r ||
          isPiecewiseStatement r then "(" ++ right ++ ")"
      else if isPlusOperator r || isMinusOperator r then
        if r.right ≠ .nil then "(" ++ right ++ ")" else right
      else right
    left ++ op ++ right
  else if isDivideOperator ast then
    let left :=
      if isRelationalOperator l || isLogicalOrBitwiseOperator l ||
          isPiecewiseStatement l then "(" ++ left ++ ")"
      else if isPlusOperator l || isMinusOperator l then
        if l.right ≠ .nil then "(" ++ left ++ ")" else left
      else left
    let right :=
      if isRelationalOperator r || isTimesOperator r ||
          isDivideOperator r || isLogicalOrBitwiseOperator r ||
          isPiecewiseStatement r then "(" ++ right ++ ")"
      else if isPlusOperator r || isMinusOperator r then
        if r.right ≠ .nil then "(" ++ right ++ ")" else right
      else right
    left ++ op ++ right
  else if isAndOperator ast then
    let left :=
      if isRelationalOperator l || isOrOperator l || isXorOperator l ||
          isPiecewiseStatement l then "(" ++ left ++ ")"
      else if isPlusOperator l || isMinusOperator l then
        if l.right ≠ .nil then "(" ++ left ++ ")" else left
      else if isPowerOperator l then
        if p.hasPowerOperator then "(" ++ left ++ ")" else left
      else if isRootOperator l then
        if p.hasPowerOperator then "(" ++ left ++ ")" else left
      else left
    let right :=
      if isRelationalOperator r || isOrOperator r || isXorOperator r ||
          isPiecewiseStatement r then "(" ++ right ++ ")"
      else if isPlusOperator r || isMinusOperator r then
        if r.right ≠ .nil then "(" ++ right ++ ")" else right
      else if isPowerOperator r then
        if p.hasPowerOperator then "(" ++ right ++ ")" else right
      else if isRootOperator r then
        if p.hasPowerOperator then "(" ++ right ++ ")" else right
      else right
    left ++ op ++ right
  else if isOrOperator ast then
    let left :=
      if isRelationalOperator l || isAndOperator l || isXorOperator l ||
          isPiecewiseStatement l then "(" ++ left ++ ")"
      else if isPlusOperator l || isMinusOperator l then
        if l.right ≠ .nil then "(" ++ left ++ ")" else left
      else if isPowerOperator l then
        if p.hasPowerOperator then "(" ++ left ++ ")" else left
      else if isRootOperator l then
        if p.hasPowerOperator then "(" ++ left ++ ")" else left
      else left
    let right :=
      if isRelationalOperator r || isAndOperator r || isXorOperator r ||
          isPiecewiseStatement r then "(" ++ right ++ ")"
      else if isPlusOperator r || isMinusOperator r then
        if r.right ≠ .nil then "(" ++ right ++ ")" else right
      else if isPowerOperator r then
        if p.hasPowerOperator then "(" ++ right ++ ")" else right
      else if isRootOperator r then
        if p.hasPowerOperator then "(" ++ right ++ ")" else right
      else right
    left ++ op ++ right
  else if isXorOperator ast then
    let left :=
      if isRelationalOperator l || isAndOperator l || isOrOperator l ||
          isPiecewiseStatement l then "(" ++ left ++ ")"
      else if isPlusOperator l || isMinusOperator l then
        if l.right ≠ .nil then "(" ++ left ++ ")" else left
      else if isPowerOperator l then
        if p.hasPowerOperator then "(" ++ left ++ ")" else left
      else if isRootOperator l then
        if p.hasPowerOperator then "(" ++ left ++ ")" else left
      else left
    let right :=
      if isRelationalOperator r || isAndOperator r || isOrOperator r ||
          isPiecewiseStatement r then "(" ++ right ++ ")"
      else if isPlusOperator r || isMinusOperator r then
        if r.right ≠ .nil then "(" ++ right ++ ")" else right
      else if isPowerOperator r then
        if p.hasPowerOperator then "(" ++ right ++ ")" else right
      else if isRootOperator r then
        if p.hasPowerOperator then "(" ++ right ++ ")" else right
      else right
    left ++ op ++ right
  else if isPowerOperator ast then
    let left :=
      if isRelationalOperator l || isMinusOperator l ||
          isTimesOperator l || isDivideOperator l ||
          isLogicalOrBitwiseOperator l || isPiecewiseStatement l then
        "(" ++ left ++ ")"
      else if isPlusOperator l then
        if l.right ≠ .nil then "(" ++ left ++ ")" else left
      else left
    let right :=
      if isRelationalOperator r || isMinusOperator l ||
          isTimesOperator r || isDivideOperator r ||
          isPowerOperator r || isRootOperator r ||
          isLogicalOrBitwiseOperator r || isPiecewiseStatement r then
        "(" ++ right ++ ")"
      else if isPlusOperator r then
        if r.right ≠ .nil then "(" ++ right ++ ")" else right
      else right
    left ++ op ++ right
  else if isRootOperator ast then
    let right :=
      if isRelationalOperator r || isMinusOperator r ||
          isTimesOperator r || isDivideOperator r ||
          isLogicalOrBitwiseOperator r || isPiecewiseStatement r then
        "(" ++ right ++ ")"
      else if isPlusOperator r then
        if r.right ≠ .nil then "(" ++ right ++ ")" else right
      else right
    let left :=
      if isRelationalOperator l || isMinusOperator l ||
          isTimesOperator l || isDivideOperator l ||
          isPowerOperator l || isRootOperator l ||
          isLogicalOrBitwiseOperator l || isPiecewiseStatement l then
        "(" ++ left ++ ")"
      else if isPlusOperator l then
        if l.right ≠ .nil then "(" ++ left ++ ")" else left
      else left
    right ++ op ++ "(1.0/" ++ left ++ ")"
  else
    left ++ op ++ right

/-- Generator::GeneratorImpl::generateCode (lines 1725-1977): render an
expression node to target-syntax text. parentPresent models whether the
C++ call received a non-null parentAst argument (only min/max/gcd/lcm
pass one, for n-ary call-site flattening); pTy models the type of the
node's parent back-pointer, threaded by the recursion, which the CI case
uses to render a rate rather than a state. Binary operator cases render
both sides and parenthesize them through applyOperatorParens, exactly as
generateOperatorCode does (generateOperatorCode below is definitionally
this composition). -/
def generateCode (p : GeneratorProfile)
    (store : List GeneratorVariableImpl) :
    GeneratorEquationAstImpl → Bool → Option AstType → String
  | .nil, _, _ => ""
  | .node ty value var l r, parentPresent, pTy =>
    let ast := GeneratorEquationAstImpl.node ty value var l r
    match ty with
    | .EQ =>
      applyOperatorParens p p.eqString ast
        (generateCode p store l false (some ty))
        (generateCode p store r false (some ty))
    | .EQEQ =>
      applyOperatorParens p p.eqEqString ast
        (generateCode p store l false (some ty))
        (generateCode p store r false (some ty))
    | .NEQ =>
      applyOperatorParens p p.neqString ast
        (generateCode p store l false (some ty))
        (generateCode p store r false (some ty))
    | .LT =>
      applyOperatorParens p p.ltString ast
        (generateCode p store l false (some ty))
        (generateCode p store r false (some ty))
    | .LEQ =>
      applyOperatorParens p p.leqString ast
        (generateCode p store l false (some ty))
        (generateCode p store r false (some ty))
    | .GT =>
      applyOperatorParens p p.gtString ast
        (generateCode p store l false (some ty))
        (generateCode p store r false (some ty))
    | .GEQ =>
      applyOperatorParens p p.geqString ast
        (generateCode p store l false (some ty))
        (generateCode p store r false (some ty))
    | .PLUS =>
      if r ≠ .nil then
        applyOperatorParens p p.plusString ast
          (generateCode p store l false (some ty))
          (generateCode p store r false (some ty))
      else generateCode p store l false (some ty)
    | .MINUS =>
      if r ≠ .nil then
        applyOperatorParens p p.minusString ast
          (generateCode p store l false (some ty))
          (generateCode p store r false (some ty))
      else
        let left := generateCode p store l false (some ty)
        let left :=
          if isRelationalOperator l || isPlusOperator l ||
              isMinusOperator l || isLogicalOrBitwiseOperator l ||
              isPiecewiseStatement l then
            "(" ++ left ++ ")"
          else left
        p.minusString ++ left
    | .TIMES =>
      applyOperatorParens p p.timesString ast
        (generateCode p store l false (some ty))
        (generateCode p store r false (some ty))
    | .DIVIDE =>
      applyOperatorParens p p.divideString ast
        (generateCode p store l false (some ty))
        (generateCode p store r false (some ty))
    | .POWER =>
      let stringValue := generateCode p store r false (some ty)
      if isEqual (convertToDouble? stringValue) (5, 1) then
        p.squareRootString ++ "(" ++ generateCode p store l false (some ty)
          ++ ")"
      else if isEqual (convertToDouble? stringValue) (2, 0) then
        p.squareString ++ "(" ++ generateCode p store l false (some ty)
          ++ ")"
      else if p.hasPowerOperator then
        applyOperatorParens p p.powerString ast
          (generateCode p store l false (some ty))
          (generateCode p store r false (some ty))
      else
        p.powerString ++ "(" ++ generateCode p store l false (some ty)
          ++ ", " ++ stringValue ++ ")"
    | .ROOT =>
      if r ≠ .nil then
        let stringValue := generateCode p store l false (some ty)
        if isEqual (convertToDouble? stringValue) (2, 0) then
          p.squareRootString ++ "("
            ++ generateCode p store r false (some ty) ++ ")"
        else if p.hasPowerOperator then
          applyOperatorParens p p.powerString ast
            (generateCode p store l false (some ty))
            (generateCode p store r false (some ty))
        else
          p.powerString ++ "(" ++ generateCode p store r false (some ty)
            ++ ", 1.0/" ++ stringValue ++ ")"
      else
        p.squareRootString ++ "(" ++ generateCode p store l false (some ty)
          ++ ")"
    | .ABS =>
      p.absoluteValueString ++ "(" ++ generateCode p store l false (some ty)
        ++ ")"
    | .EXP =>
      p.exponentialString ++ "(" ++ generateCode p store l false (some ty)
        ++ ")"
    | .LN =>
      p.napierianLogarithmString ++ "("
        ++ generateCode p store l false (some ty) ++ ")"
    | .LOG =>
      if r ≠ .nil then
        let stringValue := generateCode p store l false (some ty)
        if isEqual (convertToDouble? stringValue) (10, 0) then
          p.commonLogarithmString ++ "("
            ++ generateCode p store r false (some ty) ++ ")"
        else
          p.napierianLogarithmString ++ "("
            ++ generateCode p store r false (some ty) ++ ")/"
            ++ p.napierianLogarithmString ++ "(" ++ stringValue ++ ")"
      else
        p.commonLogarithmString ++ "("
          ++ generateCode p store l false (some ty) ++ ")"
    | .CEILING =>
      p.ceilingString ++ "(" ++ generateCode p store l false (some ty)
        ++ ")"
    | .FLOOR =>
      p.floorString ++ "(" ++ generateCode p store l false (some ty) ++ ")"
    | .FACTORIAL =>
      p.factorialString ++ "(" ++ generateCode p store l false (some ty)
        ++ ")"
    | .AND =>
      applyOperatorParens p p.andString ast
        (generateCode p store l false (some ty))
        (generateCode p store r false (some ty))
    | .OR =>
      applyOperatorParens p p.orString ast
        (generateCode p store l false (some ty))
        (generateCode p store r false (some ty))
    | .XOR =>
      if p.hasXorOperator then
        applyOperatorParens p p.xorString ast
          (generateCode p store l false (some ty))
          (generateCode p store r false (some ty))
      else
        p.xorString ++ "(" ++ generateCode p store l false (some ty)
          ++ ", " ++ generateCode p store r false (some ty) ++ ")"
    | .NOT => p.notString ++ generateCode p store l false (some ty)
    | .DIFF => generateCode p store r false (some ty)
    | .MIN =>
      if !parentPresent then
        p.minString ++ "(" ++ generateCode p store l true (some ty)
          ++ ", " ++ generateCode p store r true (some ty) ++ ")"
      else
        generateCode p store l true (some ty) ++ ", "
          ++ generateCode p store r true (some ty)
    | .MAX =>
      if !parentPresent then
        p.maxString ++ "(" ++ generateCode p store l true (some ty)
          ++ ", " ++ generateCode p store r true (some ty) ++ ")"
      else
        generateCode p store l true (some ty) ++ ", "
          ++ generateCode p store r true (some ty)
    | .GCD =>
      if !parentPresent then
        p.gcdString ++ "(" ++ generateCode p store l true (some ty)
          ++ ", " ++ generateCode p store r true (some ty) ++ ")"
      else
        generateCode p store l true (some ty) ++ ", "
          ++ generateCode p store r true (some ty)
    | .LCM =>
      if !parentPresent then
        p.lcmString ++ "(" ++ generateCode p store l true (some ty)
          ++ ", " ++ generateCode p store r true (some ty) ++ ")"
      else
        generateCode p store l true (some ty) ++ ", "
          ++ generateCode p store r true (some ty)
    | .SIN =>
      p.sinString ++ "(" ++ generateCode p store l false (some ty) ++ ")"
    | .COS =>
      p.cosString ++ "(" ++ generateCode p store l false (some ty) ++ ")"
    | .TAN =>
      p.tanString ++ "(" ++ generateCode p store l false (some ty) ++ ")"
    | .SEC =>
      p.secString ++ "(" ++ generateCode p store l false (some ty) ++ ")"
    | .CSC =>
      p.cscString ++ "(" ++ generateCode p store l false (some ty) ++ ")"
    | .COT =>
      p.cotString ++ "(" ++ generateCode p store l false (some ty) ++ ")"
    | .SINH =>
      p.sinhString ++ "(" ++ generateCode p store l false (some ty) ++ ")"
    | .COSH =>
      p.coshString ++ "(" ++ generateCode p store l false (some ty) ++ ")"
    | .TANH =>
      p.tanhString ++ "(" ++ generateCode p store l false (some ty) ++ ")"
    | .SECH =>
      p.sechString ++ "(" ++ generateCode p store l false (some ty) ++ ")"
    | .CSCH =>
      p.cschString ++ "(" ++ generateCode p store l false (some ty) ++ ")"
    | .COTH =>
      p.cothString ++ "(" ++ generateCode p store l false (some ty) ++ ")"
    | .ASIN =>
      p.asinString ++ "(" ++ generateCode p store l false (some ty) ++ ")"
    | .ACOS =>
      p.acosString ++ "(" ++ generateCode p store l false (some ty) ++ ")"
    | .ATAN =>
      p.atanString ++ "(" ++ generateCode p store l false (some ty) ++ ")"
    | .ASEC =>
      p.asecString ++ "(" ++ generateCode p store l false (some ty) ++ ")"
    | .ACSC =>
      p.acscString ++ "(" ++ generateCode p store l false (some ty) ++ ")"
    | .ACOT =>
      p.acotString ++ "(" ++ generateCode p store l false (some ty) ++ ")"
    | .ASINH =>
      p.asinhString ++ "(" ++ generateCode p store l false (some ty) ++ ")"
    | .ACOSH =>
      p.acoshString ++ "(" ++ generateCode p store l false (some ty) ++ ")"
    | .ATANH =>
      p.atanhString ++ "(" ++ generateCode p store l false (some ty) ++ ")"
    | .ASECH =>
      p.asechString ++ "(" ++ generateCode p store l false (some ty) ++ ")"
    | .ACSCH =>
      p.acschString ++ "(" ++ generateCode p store l false (some ty) ++ ")"
    | .ACOTH =>
      p.acothString ++ "(" ++ generateCode p store l false (some ty) ++ ")"
    | .REM =>
      p.remString ++ "(" ++ generateCode p store l false (some ty)
        ++ ", " ++ generateCode p store r false (some ty) ++ ")"
    | .PIECEWISE =>
      if r ≠ .nil then
        if r.ty? = some .PIECE then
          generateCode p store l false (some ty)
            ++ generatePiecewiseElseCode p
              (generateCode p store r false (some ty)
                ++ generatePiecewiseElseCode p p.nanString)
        else
          generateCode p store l false (some ty)
            ++ generatePiecewiseElseCode p
              (generateCode p store r false (some ty))
      else
        generateCode p store l false (some ty)
          ++ generatePiecewiseElseCode p p.nanString
    | .PIECE =>
      generatePiecewiseIfCode p (generateCode p store r false (some ty))
        (generateCode p store l false (some ty))
    | .OTHERWISE => generateCode p store l false (some ty)
    | .CN => value
    | .CI => generateVariableName p store var (decide (pTy = some .DIFF))
    | .DEGREE => generateCode p store l false (some ty)
    | .LOGBASE => generateCode p store l false (some ty)
    | .BVAR => generateCode p store l false (some ty)
    | .TRUE => p.trueString
    | .FALSE => p.falseString
    | .E => p.eString
    | .PI => p.piString
    | .INF => p.infString
    | .NAN => p.nanString

/-- Generator::GeneratorImpl::generateOperatorCode (lines 1391-1686):
render the left and right branches of the node, then parenthesize them
by the precedence rules of applyOperatorParens. Definitionally equal to
the corresponding binary operator cases of generateCode. -/
def generateOperatorCode (p : GeneratorProfile)
    (store : List GeneratorVariableImpl) (op : String)
    (ast : GeneratorEquationAstImpl) : String :=
  applyOperatorParens p op ast
    (generateCode p store ast.left false ast.ty?)
    (generateCode p store ast.right false ast.ty?)

/-- Generator::GeneratorImpl::generateMinusUnaryCode (lines 1688-1705):
render the left branch and parenthesize it when its own operator binds
more loosely than unary minus. Definitionally equal to the unary MINUS
case of generateCode. -/
def generateMinusUnaryCode (p : GeneratorProfile)
    (store : List GeneratorVariableImpl)
    (ast : GeneratorEquationAstImpl) : String :=
  let left := generateCode p store ast.left false ast.ty?
  let left :=
    if isRelationalOperator ast.left || isPlusOperator ast.left ||
        isMinusOperator ast.left || isLogicalOrBitwiseOperator ast.left ||
        isPiecewiseStatement ast.left then
      "(" ++ left ++ ")"
    else left
  p.minusString ++ left

/-- Generator::ModelType. -/
inductive ModelType where
  | UNKNOWN
  | ALGEBRAIC
  | ODE
deriving DecidableEq, Repr, Inhabited

/-- The public face of the engine: the per-run state reachable from a
Generator object. hasVariableOfIntegration models whether the
mVariableOfIntegration pointer is non-null; errorCount models the
Logger's error list length. -/
structure Generator where
  mHasModel : Bool := false
  hasVariableOfIntegration : Bool := false
  mVariables : List GeneratorVariableImpl := []
  mEquations : List GeneratorEquationImpl := []
  mProfile : GeneratorProfile := {}
  errorCount : Nat := 0
deriving DecidableEq, Repr, Inhabited

namespace Generator

/-- Generator::GeneratorImpl::hasValidModel (lines 585-588): a model has
been processed and no error has been recorded. -/
def hasValidModel (g : Generator) : Bool :=
  g.mHasModel && decide (g.errorCount = 0)

/-- Generator::modelType (lines 2132-2143): UNKNOWN without a valid
model; else ODE when a variable of integration was found, else
ALGEBRAIC. -/
def modelType (g : Generator) : ModelType :=
  if !g.hasValidModel then .UNKNOWN
  else if g.hasVariableOfIntegration then .ODE
  else .ALGEBRAIC

/-- Generator::stateCount (lines 2145-2160): 0 without a valid model;
else the number of STATE variable records. -/
def stateCount (g : Generator) : Nat :=
  if !g.hasValidModel then 0
  else g.mVariables.countP fun v => decide (v.mType = .STATE)

/-- Generator::variableCount (lines 2162-2180): 0 without a valid model;
else the number of ALGEBRAIC, CONSTANT and COMPUTED variable records. -/
def variableCount (g : Generator) : Nat :=
  if !g.hasValidModel then 0
  else g.mVariables.countP fun v =>
    decide (v.mType = .ALGEBRAIC ∨ v.mType = .CONSTANT ∨
      v.mType = .COMPUTED_TRUE_CONSTANT ∨
      v.mType = .COMPUTED_VARIABLE_BASED_CONSTANT)

/-- Generator::initializeVariables (lines 2213-2235): empty once any
error is recorded; else one line per STATE or CONSTANT variable
assigning its literal initial value (with a hard-coded assignment text),
then one line per TRUE_CONSTANT equation. -/
def initializeVariables (g : Generator) : String :=
  if g.errorCount ≠ 0 then ""
  else
    let res := (List.range g.mVariables.length).foldl
      (fun res i =>
        let v := getVar g.mVariables i
        if v.mType = .STATE ∨ v.mType = .CONSTANT then
          res ++ (generateVariableName g.mProfile g.mVariables i false
            ++ " = " ++ v.initialValue
            ++ g.mProfile.commandSeparatorString ++ "\n")
        else res) ""
    g.mEquations.foldl
      (fun res eq =>
        if eq.mType = .TRUE_CONSTANT then
          res ++ (generateCode g.mProfile g.mVariables eq.mAst false none
            ++ g.mProfile.commandSeparatorString ++ "\n")
        else res) res

/-- Generator::computeConstantEquations (lines 2237-2252): empty once
any error is recorded; else one line per VARIABLE_BASED_CONSTANT
equation. -/
def computeConstantEquations (g : Generator) : String :=
  if g.errorCount ≠ 0 then ""
  else
    g.mEquations.foldl
      (fun res eq =>
        if eq.mType = .VARIABLE_BASED_CONSTANT then
          res ++ (generateCode g.mProfile g.mVariables eq.mAst false none
            ++ g.mProfile.commandSeparatorString ++ "\n")
        else res) ""

/-- Generator::computeRateEquations (lines 2254-2269): empty once any
error is recorded; else one line per RATE equation. -/
def computeRateEquations (g : Generator) : String :=
  if g.errorCount ≠ 0 then ""
  else
    g.mEquations.foldl
      (fun res eq =>
        if eq.mType = .RATE then
          res ++ (generateCode g.mProfile g.mVariables eq.mAst false none
            ++ g.mProfile.commandSeparatorString ++ "\n")
        else res) ""

/-- Generator::computeAlgebraicEquations (lines 2271-2286): empty once
any error is recorded; else one line per ALGEBRAIC equation. -/
def computeAlgebraicEquations (g : Generator) : String :=
  if g.errorCount ≠ 0 then ""
  else
    g.mEquations.foldl
      (fun res eq =>
        if eq.mType = .ALGEBRAIC then
          res ++ (generateCode g.mProfile g.mVariables eq.mAst false none
            ++ g.mProfile.commandSeparatorString ++ "\n")
        else res) ""

end Generator

/-- Concatenation of a list of generated lines. -/
def linesConcat : List String → String
  | [] => ""
  | s :: rest => s ++ linesConcat rest

/-- A CI reference node for the given store position. -/
def ciNode (n : Nat) : GeneratorEquationAstImpl := .node .CI "" n .nil .nil

/-- A profile with an infix power operator, used to exercise the power
branch of the emitter. -/
def powerBugProfile : GeneratorProfile :=
  { powerString := "^"
    minusString := "-"
    variablesArrayString := "variables"
    hasPowerOperator := true }

/-- Three resolved algebraic variable records at indices 0, 1 and 2. -/
def powerBugStore : List GeneratorVariableImpl :=
  [{ mType := .ALGEBRAIC, mIndex := 0 }, { mType := .ALGEBRAIC, mIndex := 1 },
    { mType := .ALGEBRAIC, mIndex := 2 }]

/-- The power node a ^ (b - c): its right operand is a binary minus. -/
def powerMinusRight : GeneratorEquationAstImpl :=
  .node .POWER "" 0 (ciNode 0) (.node .MINUS "" 0 (ciNode 1) (ciNode 2))

/-- The power node (a - b) ^ c: its right operand is a plain reference. -/
def powerMinusLeft : GeneratorEquationAstImpl :=
  .node .POWER "" 0 (.node .MINUS "" 0 (ciNode 0) (ciNode 1)) (ciNode 2)

/-- A run state holding one CONSTANT variable and one recorded error. -/
def sConstErr : ProcState :=
  { mVariables := [{ mType := .CONSTANT, initialValue := "1.0" }]
    mEquations := []
    errorCount := 1 }

/-- An error-free generator holding one initialised STATE record, with a
profile whose equality text differs from the hard-coded initializer
assignment text. -/
def gInitProfile : Generator :=
  { mVariables := [{ mType := .STATE, mIndex := 0, initialValue := "3.0" }]
    mProfile :=
      { eqString := ":="
        commandSeparatorString := ";"
        statesArrayString := "states" } }

/-- A concrete erroring generator holding a STATE and a CONSTANT record,
used to witness the error-path behaviour of the scalar queries. -/
def gC10 : Generator :=
  { mHasModel := true
    errorCount := 1
    mVariables := [{ mType := .STATE }, { mType := .CONSTANT }] }

/-- An equation holding exactly one unknown plain reference, fed to the
check routine to witness the classification branch. -/
def c1eq : GeneratorEquationImpl := { mVariables := [0] }

/-- A causalization context with a single UNKNOWN variable record and
freshly initialized counters. -/
def c1s : CausalState :=
  { store := [{}]
    equationOrder := 0
    stateIndex := MAX_SIZE_T
    variableIndex := MAX_SIZE_T }

/-- The multiset of order values already assigned: the mOrder fields of
the equations whose order is no longer 0 (orders are only ever written
with the pre-incremented counter, so 0 means never ordered). -/
def ordersOf (eqs : List GeneratorEquationImpl) : List Nat :=
  (eqs.filter fun e => decide (e.mOrder ≠ 0)).map GeneratorEquationImpl.mOrder

/-- All variable references of an equation point inside a store of the
given length. processModel only builds equations over the variables it
has collected into mVariables, so this holds of every run. -/
def RefsBound (eq : GeneratorEquationImpl) (n : Nat) : Prop :=
  (∀ id ∈ eq.mVariables, id < n) ∧ (∀ id ∈ eq.mOdeVariables, id < n)

instance (eq : GeneratorEquationImpl) (n : Nat) :
    Decidable (RefsBound eq n) :=
  inferInstanceAs (Decidable ((∀ id ∈ eq.mVariables, id < n) ∧
    (∀ id ∈ eq.mOdeVariables, id < n)))

/-- Iterate the causalization pass a fixed number of times,
unconditionally (used to name the pass at which the loop exits). -/
def passIter : Nat → List GeneratorEquationImpl → CausalState →
    List GeneratorEquationImpl × CausalState
  | 0, eqs, s => (eqs, s)
  | n + 1, eqs, s =>
    let res := runPassAux eqs s
    passIter n res.1 res.2.1


/-- A run state with one plain constant, one unknown variable and one
equation over the unknown: a minimal run that both indexes a constant
and orders an equation. -/
def gOrders : ProcState :=
  { mVariables := [{ mType := .CONSTANT, initialValue := "1.0" }, {}]
    mEquations := [{ mVariables := [1] }] }


/-- Invariant of the ghost index-write log during a run. The varIds
written so far are pairwise distinct (each record receives an index at
most once); every logged record currently reads back as a plain CONSTANT
(written by the constant-index loop) or as computed (written by check);
the two counters equal the maximum size_t value plus the number of
writes drawn from each, modulo 2^64; and the values drawn from each
counter so far are exactly 0, 1, 2, ... in order. -/
def LogInv (store : List GeneratorVariableImpl) (log : List IdxWrite)
    (sIdx vIdx : Nat) : Prop :=
  (log.map IdxWrite.varId).Nodup ∧
  (∀ w ∈ log, w.varId < store.length ∧
    ((getVar store w.varId).mType = .CONSTANT ∨
      (getVar store w.varId).mComputed = true)) ∧
  sIdx = (MAX_SIZE_T + log.countP IdxWrite.isState) % WORD ∧
  vIdx = (MAX_SIZE_T + log.countP (fun w => !w.isState)) % WORD ∧
  (log.filter IdxWrite.isState).map IdxWrite.value =
    List.range (log.countP IdxWrite.isState) ∧
  (log.filter (fun w => !w.isState)).map IdxWrite.value =
    List.range (log.countP (fun w => !w.isState))



/-!
Theorems. Each claim of the specification is settled by one theorem,
preceded by helper lemmas shared across claims.
-/

/-- C4: for every generator instance whose error count is nonzero, each
of the four code-block queries (initializeVariables,
computeConstantEquations, computeRateEquations,
computeAlgebraicEquations) returns the empty string; no partial code is
emitted once any error has been recorded. -/
theorem blocks_empty_on_error (g : Generator) (h : g.errorCount ≠ 0) :
    g.initializeVariables = "" ∧ g.computeConstantEquations = "" ∧
    g.computeRateEquations = "" ∧ g.computeAlgebraicEquations = "" := by
  refine ⟨?_, ?_, ?_, ?_⟩ <;>
    simp [Generator.initializeVariables, Generator.computeConstantEquations,
      Generator.computeRateEquations, Generator.computeAlgebraicEquations, h]

/-- Witness for C4 at a concrete generator with one recorded error. -/
theorem blocks_empty_on_error_witness :
    ({ errorCount := 1 } : Generator).errorCount ≠ 0 ∧
    (({ errorCount := 1 } : Generator).initializeVariables = "" ∧
      ({ errorCount := 1 } : Generator).computeConstantEquations = "" ∧
      ({ errorCount := 1 } : Generator).computeRateEquations = "" ∧
      ({ errorCount := 1 } : Generator).computeAlgebraicEquations = "") :=
  ⟨by decide, blocks_empty_on_error { errorCount := 1 } (by decide)⟩

/-- C6: the variable-role transition functions are exactly: on seeing a
non-empty literal initial value, UNKNOWN becomes CONSTANT and
SHOULD_BE_STATE becomes STATE, every other role unchanged; on seeing the
variable as an ODE dependent, UNKNOWN becomes SHOULD_BE_STATE, CONSTANT
becomes STATE, and every other role (in particular SHOULD_BE_STATE and
STATE) is unchanged. -/
theorem role_transition_tables (v : GeneratorVariableImpl) (s : String)
    (hs : s ≠ "") :
    (v.setVariable s).mType =
      (match v.mType with
        | .UNKNOWN => .CONSTANT
        | .SHOULD_BE_STATE => .STATE
        | t => t) ∧
    v.makeState.mType =
      (match v.mType with
        | .UNKNOWN => .SHOULD_BE_STATE
        | .CONSTANT => .STATE
        | t => t) := by
  constructor
  · cases hm : v.mType <;>
      simp [GeneratorVariableImpl.setVariable, hs, hm]
  · cases hm : v.mType <;>
      simp [GeneratorVariableImpl.makeState, hm]

/-- Witness for C6 at a concrete record and initial value. -/
theorem role_transition_tables_witness :
    ("3.0" : String) ≠ "" ∧
    ((({} : GeneratorVariableImpl).setVariable "3.0").mType = .CONSTANT ∧
      ({} : GeneratorVariableImpl).makeState.mType = .SHOULD_BE_STATE) :=
  ⟨by decide, role_transition_tables {} "3.0" (by decide)⟩

/-- C10: stateCount and variableCount return 0 and modelType returns
UNKNOWN whenever no model has been processed or the error count is
nonzero, regardless of the variable records held internally. -/
theorem queries_zero_without_valid_model (g : Generator)
    (h : g.mHasModel = false ∨ g.errorCount ≠ 0) :
    g.stateCount = 0 ∧ g.variableCount = 0 ∧ g.modelType = .UNKNOWN := by
  have hv : g.hasValidModel = false := by
    rcases h with h | h <;> simp [Generator.hasValidModel, h]
  refine ⟨?_, ?_, ?_⟩ <;>
    simp [Generator.stateCount, Generator.variableCount,
      Generator.modelType, hv]

/-- Witness for C10 at a concrete erroring generator that internally
holds a STATE record and a CONSTANT record. -/
theorem queries_zero_without_valid_model_witness :
    (gC10.mHasModel = false ∨ gC10.errorCount ≠ 0) ∧
    (gC10.stateCount = 0 ∧ gC10.variableCount = 0 ∧
      gC10.modelType = .UNKNOWN) :=
  ⟨Or.inr (by decide), queries_zero_without_valid_model gC10 (Or.inr (by decide))⟩


/-- C3 (code slip at generator.cpp line 1640): whether the right operand
of a power node is parenthesized depends on the LEFT operand being a
minus, not on the right operand itself: a ^ (b - c) renders with the
binary-minus right operand unparenthesized (changing the meaning of the
emitted code), while (a - b) ^ c spuriously parenthesizes the plain
reference on the right. -/
theorem power_right_paren_uses_left_operand :
    generateCode powerBugProfile powerBugStore powerMinusRight false none
      = "variables[0]^variables[1]-variables[2]" ∧
    generateCode powerBugProfile powerBugStore powerMinusLeft false none
      = "(variables[0]-variables[1])^(variables[2])" :=
  ⟨by decide, by decide⟩

/-- Helper: the counter obtained by pre-incrementing a wrapped counter. -/
theorem counter_step (k : Nat) :
    ((MAX_SIZE_T + k) % WORD + 1) % WORD = (MAX_SIZE_T + (k + 1)) % WORD := by
  rw [Nat.mod_add_mod, Nat.add_assoc]

/-- Helper: the k-th pre-incremented value of a counter initialized to
MAX_SIZE_T is k - 1; equivalently the value paired with count k + 1 is
k. -/
theorem counter_value (k : Nat) (h : k < WORD) :
    (MAX_SIZE_T + (k + 1)) % WORD = k := by
  have h1 : 0 < WORD := by decide
  have e : MAX_SIZE_T + (k + 1) = WORD + k := by
    unfold MAX_SIZE_T
    omega
  rw [e, Nat.add_mod_left, Nat.mod_eq_of_lt h]

/-- Helper: pointwise description of the constant-index loop: every plain
CONSTANT record receives the next counter value, in store order; every
other record is untouched. -/
theorem constIndexPass_get (vs : List GeneratorVariableImpl) :
    ∀ (base k i : Nat), k + vs.length < WORD → i < vs.length →
    getVar (constIndexPass base vs ((MAX_SIZE_T + k) % WORD)).1 i =
      (if (getVar vs i).mType = .CONSTANT then
        { getVar vs i with
          mIndex := k + ((vs.take i).countP fun v =>
            decide (v.mType = .CONSTANT)) }
       else getVar vs i) := by
  induction vs with
  | nil => intro base k i hk hi; simp at hi
  | cons v rest ih =>
    intro base k i hk hi
    by_cases hc : v.mType = .CONSTANT
    · have hstep : ((MAX_SIZE_T + k) % WORD + 1) % WORD
          = (MAX_SIZE_T + (k + 1)) % WORD := counter_step k
      cases i with
      | zero =>
        have hv : (MAX_SIZE_T + (k + 1)) % WORD = k := by
          refine counter_value k ?_
          simp at hk
          omega
        simp [constIndexPass, hc, getVar, hstep, hv]
      | succ i =>
        have hk' : (k + 1) + rest.length < WORD := by
          simp at hk
          omega
        have hi' : i < rest.length := by
          simp at hi
          omega
        have := ih (base + 1) (k + 1) i hk' hi'
        simp [constIndexPass, hc, getVar, hstep] at this ⊢
        rw [this]
        by_cases hd : (rest.getD i default).mType = .CONSTANT <;>
          simp [hd, List.countP_cons, Nat.add_comm, Nat.add_assoc,
            Nat.add_left_comm]
    · cases i with
      | zero => simp [constIndexPass, hc, getVar]
      | succ i =>
        have hk' : k + rest.length < WORD := by
          simp at hk
          omega
        have hi' : i < rest.length := by
          simp at hi
          omega
        have := ih (base + 1) k i hk' hi'
        simp [constIndexPass, hc, getVar] at this ⊢
        rw [this]

/-- C5 counterexample: with one recorded error, the causalization phase
is skipped, yet the plain CONSTANT variable still receives variable
index 0 (its record held index MAX_SIZE_T before the run). -/
theorem constant_indexed_despite_error :
    sConstErr.errorCount ≠ 0 ∧
    (getVar sConstErr.mVariables 0).mType = .CONSTANT ∧
    (getVar sConstErr.mVariables 0).mIndex = MAX_SIZE_T ∧
    (getVar (processModelCore sConstErr).mVariables 0).mIndex = 0 :=
  ⟨by decide, by decide, by decide, by decide⟩

/-- C5 as amended: when the error list is non-empty after the structural
checks, no causalization pass is executed (the equation list and error
count are returned untouched), but the constant-index loop still runs:
every plain CONSTANT variable receives its constant-rank index and every
other record is untouched. -/
theorem causalization_gated_constants_unconditional (s : ProcState)
    (herr : s.errorCount ≠ 0) (hW : s.mVariables.length < WORD) :
    (processModelCore s).mEquations = s.mEquations ∧
    (processModelCore s).errorCount = s.errorCount ∧
    ∀ i, i < s.mVariables.length →
      getVar (processModelCore s).mVariables i =
        (if (getVar s.mVariables i).mType = .CONSTANT then
          { getVar s.mVariables i with
            mIndex := (s.mVariables.take i).countP fun v =>
              decide (v.mType = .CONSTANT) }
         else getVar s.mVariables i) := by
  refine ⟨?_, ?_, ?_⟩
  · simp [processModelCore, herr]
  · simp [processModelCore, herr]
  · intro i hi
    have h0 : (MAX_SIZE_T % WORD) = MAX_SIZE_T := by decide
    have := constIndexPass_get s.mVariables 0 0 i (by omega) hi
    simp [h0] at this
    simpa [processModelCore, herr] using this

/-- Witness for the amended C5 at the concrete erroring run state. -/
theorem causalization_gated_constants_unconditional_witness :
    sConstErr.errorCount ≠ 0 ∧ sConstErr.mVariables.length < WORD ∧
    (processModelCore sConstErr).mEquations = sConstErr.mEquations := by
  refine ⟨by decide, by decide, ?_⟩
  exact (causalization_gated_constants_unconditional sConstErr (by decide)
    (by decide)).1

/-- C8 counterexample: the initializer line for the STATE variable is
rendered with a hard-coded assignment text, so with a profile whose
equality text is ":=", no decomposition lvalue, profile assignment
operator, expression, terminator exists: the profile's assignment text
does not even occur inside the generated line. -/
theorem initializer_assignment_not_from_profile :
    gInitProfile.initializeVariables = "states[0] = 3.0;\n" ∧
    gInitProfile.mProfile.eqString = ":=" ∧
    ¬ (gInitProfile.mProfile.eqString.data <:+:
        gInitProfile.initializeVariables.data) :=
  ⟨by decide, by decide, by decide⟩

/-- Helper: the equation-block fold is the concatenation of the lines of
the equations of the selected kind. -/
theorem eqBlock_fold (p : GeneratorProfile)
    (store : List GeneratorVariableImpl) (t : EqType)
    (eqs : List GeneratorEquationImpl) (init : String) :
    eqs.foldl (fun res eq =>
        if eq.mType = t then
          res ++ (generateCode p store eq.mAst false none
            ++ p.commandSeparatorString ++ "\n")
        else res) init
      = init ++ linesConcat ((eqs.filter fun eq =>
          decide (eq.mType = t)).map fun eq =>
        generateCode p store eq.mAst false none
          ++ p.commandSeparatorString ++ "\n") := by
  induction eqs generalizing init with
  | nil => simp [linesConcat]
  | cons x xs ih =>
    simp only [List.foldl_cons]
    by_cases h : x.mType = t
    · rw [if_pos h, ih]
      simp [h, linesConcat, String.append_assoc]
    · rw [if_neg h, ih]
      simp [h, linesConcat]

/-- Helper: the initializer variable fold is the concatenation of the
initial-value lines of the STATE and CONSTANT records. -/
theorem initBlock_fold (p : GeneratorProfile)
    (store : List GeneratorVariableImpl) (idxs : List Nat) (init : String) :
    idxs.foldl (fun res i =>
        let v := getVar store i
        if v.mType = .STATE ∨ v.mType = .CONSTANT then
          res ++ (generateVariableName p store i false ++ " = "
            ++ v.initialValue ++ p.commandSeparatorString ++ "\n")
        else res) init
      = init ++ linesConcat ((idxs.filter fun i =>
          decide ((getVar store i).mType = .STATE ∨
            (getVar store i).mType = .CONSTANT)).map fun i =>
        generateVariableName p store i false ++ " = "
          ++ (getVar store i).initialValue
          ++ p.commandSeparatorString ++ "\n") := by
  induction idxs generalizing init with
  | nil => simp [linesConcat]
  | cons x xs ih =>
    simp only [List.foldl_cons]
    by_cases h : (getVar store x).mType = .STATE ∨
        (getVar store x).mType = .CONSTANT
    · rw [if_pos h, ih]
      simp [h, linesConcat, String.append_assoc]
    · rw [if_neg h, ih]
      simp [h, linesConcat]

/-- C8 as amended: with no recorded error, each of the four blocks is a
concatenation of lines rendered-text, profile terminator, newline; for
an equation whose tree is rooted at an EQ node, the rendered text is
lvalue code, the profile's equality text, right-hand-side code; but the
initializer's per-variable lines splice the literal text " = " between
the lvalue and the initial value, not a profile string. -/
theorem block_line_structure (g : Generator) (h : g.errorCount = 0) :
    g.initializeVariables =
      linesConcat (((List.range g.mVariables.length).filter fun i =>
          decide ((getVar g.mVariables i).mType = .STATE ∨
            (getVar g.mVariables i).mType = .CONSTANT)).map fun i =>
        generateVariableName g.mProfile g.mVariables i false ++ " = "
          ++ (getVar g.mVariables i).initialValue
          ++ g.mProfile.commandSeparatorString ++ "\n")
      ++ linesConcat ((g.mEquations.filter fun eq =>
          decide (eq.mType = .TRUE_CONSTANT)).map fun eq =>
        generateCode g.mProfile g.mVariables eq.mAst false none
          ++ g.mProfile.commandSeparatorString ++ "\n") ∧
    g.computeConstantEquations =
      linesConcat ((g.mEquations.filter fun eq =>
          decide (eq.mType = .VARIABLE_BASED_CONSTANT)).map fun eq =>
        generateCode g.mProfile g.mVariables eq.mAst false none
          ++ g.mProfile.commandSeparatorString ++ "\n") ∧
    g.computeRateEquations =
      linesConcat ((g.mEquations.filter fun eq =>
          decide (eq.mType = .RATE)).map fun eq =>
        generateCode g.mProfile g.mVariables eq.mAst false none
          ++ g.mProfile.commandSeparatorString ++ "\n") ∧
    g.computeAlgebraicEquations =
      linesConcat ((g.mEquations.filter fun eq =>
          decide (eq.mType = .ALGEBRAIC)).map fun eq =>
        generateCode g.mProfile g.mVariables eq.mAst false none
          ++ g.mProfile.commandSeparatorString ++ "\n") ∧
    ∀ (v : String) (w : Nat) (l r : GeneratorEquationAstImpl),
      generateCode g.mProfile g.mVariables (.node .EQ v w l r) false none
        = generateCode g.mProfile g.mVariables l false (some .EQ)
          ++ g.mProfile.eqString
          ++ generateCode g.mProfile g.mVariables r false (some .EQ) := by
  refine ⟨?_, ?_, ?_, ?_, ?_⟩
  · rw [Generator.initializeVariables]
    simp only [h]
    rw [initBlock_fold, eqBlock_fold]
    simp
  · rw [Generator.computeConstantEquations]
    simp only [h]
    rw [eqBlock_fold]
    simp
  · rw [Generator.computeRateEquations]
    simp only [h]
    rw [eqBlock_fold]
    simp
  · rw [Generator.computeAlgebraicEquations]
    simp only [h]
    rw [eqBlock_fold]
    simp
  · intro v w l r
    rfl

/-- Witness for the amended C8 at the concrete error-free generator. -/
theorem block_line_structure_witness :
    gInitProfile.errorCount = 0 ∧
    gInitProfile.initializeVariables =
      linesConcat [generateVariableName gInitProfile.mProfile
        gInitProfile.mVariables 0 false ++ " = " ++ "3.0" ++ ";" ++ "\n"] := by
  refine ⟨rfl, ?_⟩
  have h := (block_line_structure gInitProfile rfl).1
  rw [h]
  decide


/-- Helper: reading the record just written at a valid position. -/
theorem getVar_set_self (l : List GeneratorVariableImpl) (v : Nat)
    (a : GeneratorVariableImpl) (h : v < l.length) :
    getVar (l.set v a) v = a := by
  simp [getVar, List.getD, List.getElem?_set_self, h]

/-- Helper: writing one position leaves every other read unchanged. -/
theorem getVar_set_ne (l : List GeneratorVariableImpl) (v w : Nat)
    (a : GeneratorVariableImpl) (h : v ≠ w) :
    getVar (l.set v a) w = getVar l w := by
  simp [getVar, List.getD, List.getElem?_set_ne h]

/-- C1: during a causalization pass over one equation that passed the
order and overconstraint guards, after the constancy flags are updated
and the known variables are removed from the two reference sets, if
exactly one referenced variable v remains across both sets then: when
v's role is still UNKNOWN it is classified COMPUTED_TRUE_CONSTANT if the
updated trulyConstant flag is still true, else
COMPUTED_VARIABLE_BASED_CONSTANT if the updated variableBasedConstant
flag is still true, else ALGEBRAIC; and when the resulting role T is
STATE, COMPUTED_TRUE_CONSTANT, COMPUTED_VARIABLE_BASED_CONSTANT or
ALGEBRAIC, v receives the next value of the state-index counter (STATE)
or the shared variable-index counter (others), is marked computed, the
equation's kind becomes RATE, TRUE_CONSTANT, VARIABLE_BASED_CONSTANT or
ALGEBRAIC correspondingly, and the equation receives the next global
order number. -/
theorem check_resolves_single_remaining
    (eq : GeneratorEquationImpl) (s : CausalState) (v : Nat)
    (tc vbc : Bool) (vars' ode' : List Nat) (T : VarType)
    (h0 : eq.mOrder = 0)
    (hg : ¬(eq.mVariables.length + eq.mOdeVariables.length = 1 ∧
      (getVar s.store eq.frontRef).mType ≠ .UNKNOWN))
    (htc : tc = (eq.mTrulyConstant
      && !GeneratorEquationImpl.containsNonTrueConstantVariables s.store
          eq.mVariables
      && !GeneratorEquationImpl.containsNonTrueConstantVariables s.store
          eq.mOdeVariables))
    (hvbc : vbc = (eq.mVariableBasedConstant
      && !GeneratorEquationImpl.containsNonConstantVariables s.store
          eq.mVariables
      && !GeneratorEquationImpl.containsNonConstantVariables s.store
          eq.mOdeVariables))
    (hvars : vars' = eq.mVariables.filter fun id =>
      !GeneratorEquationImpl.knownVariable s.store id)
    (hode : ode' = eq.mOdeVariables.filter fun id =>
      !GeneratorEquationImpl.knownOdeVariable s.store id)
    (hone : (vars' = [v] ∧ ode' = []) ∨ (vars' = [] ∧ ode' = [v]))
    (hv : v < s.store.length)
    (hT : T = (if (getVar s.store v).mType = .UNKNOWN then
        (if tc = true then .COMPUTED_TRUE_CONSTANT
         else if vbc = true then .COMPUTED_VARIABLE_BASED_CONSTANT
         else .ALGEBRAIC)
      else (getVar s.store v).mType))
    (hTin : T = .STATE ∨ T = .COMPUTED_TRUE_CONSTANT ∨
      T = .COMPUTED_VARIABLE_BASED_CONSTANT ∨ T = .ALGEBRAIC) :
    (eq.check s).2.2 = true ∧
    (eq.check s).1.mOrder = (s.equationOrder + 1) % WORD ∧
    (eq.check s).2.1.equationOrder = (s.equationOrder + 1) % WORD ∧
    (eq.check s).1.mType =
      (if T = .STATE then .RATE
       else if T = .COMPUTED_TRUE_CONSTANT then .TRUE_CONSTANT
       else if T = .COMPUTED_VARIABLE_BASED_CONSTANT then
        .VARIABLE_BASED_CONSTANT
       else .ALGEBRAIC) ∧
    getVar (eq.check s).2.1.store v =
      { getVar s.store v with
        mType := T
        mComputed := true
        mIndex := if T = .STATE then (s.stateIndex + 1) % WORD
          else (s.variableIndex + 1) % WORD } ∧
    (T = .STATE → (eq.check s).2.1.stateIndex = (s.stateIndex + 1) % WORD ∧
      (eq.check s).2.1.variableIndex = s.variableIndex) ∧
    (T ≠ .STATE →
      (eq.check s).2.1.variableIndex = (s.variableIndex + 1) % WORD ∧
      (eq.check s).2.1.stateIndex = s.stateIndex) := by
  rw [GeneratorEquationImpl.check, if_neg (by simp [h0]), if_neg hg,
    ← hvars, ← hode, ← htc, ← hvbc]
  have hgv : (if (getVar s.store v).mType = VarType.UNKNOWN then
      ({ mType := if tc = true then VarType.COMPUTED_TRUE_CONSTANT
          else if vbc = true then VarType.COMPUTED_VARIABLE_BASED_CONSTANT
          else VarType.ALGEBRAIC
         mIndex := (getVar s.store v).mIndex
         mComputed := (getVar s.store v).mComputed
         initialValue := (getVar s.store v).initialValue } :
        GeneratorVariableImpl)
    else getVar s.store v) = { getVar s.store v with mType := T } := by
    by_cases hu : (getVar s.store v).mType = VarType.UNKNOWN
    · rw [if_pos hu, hT, if_pos hu]
    · rw [if_neg hu, hT, if_neg hu]
  rcases hone with ⟨h1, h2⟩ | ⟨h1, h2⟩
  case inr.intro =>
    rw [h1, h2]
    simp only [List.length_singleton, List.length_nil, List.headD_cons,
      Nat.add_zero, Nat.zero_add, if_pos rfl, reduceIte,
      show (if (0 : Nat) = 1 then ([] : List Nat).headD 0 else v) = v from rfl]
    rw [hgv]
    have hguard :
        ({ getVar s.store v with mType := T } :
          GeneratorVariableImpl).mType = VarType.STATE ∨
        ({ getVar s.store v with mType := T } :
          GeneratorVariableImpl).mType = VarType.COMPUTED_TRUE_CONSTANT ∨
        ({ getVar s.store v with mType := T } :
          GeneratorVariableImpl).mType =
            VarType.COMPUTED_VARIABLE_BASED_CONSTANT ∨
        ({ getVar s.store v with mType := T } :
          GeneratorVariableImpl).mType = VarType.ALGEBRAIC := by
      simpa using hTin
    rw [if_pos hguard]
    refine ⟨rfl, rfl, rfl, ?_, ?_, ?_, ?_⟩
    · simp
    · rw [getVar_set_self _ _ _ hv]
      simp
    · intro hTS
      simp [hTS]
    · intro hTS
      simp [hTS]
  case inl.intro =>
    rw [h1, h2]
    simp only [List.length_singleton, List.length_nil, List.headD_cons,
      Nat.add_zero, Nat.zero_add, if_pos rfl, reduceIte]
    rw [hgv]
    have hguard :
        ({ getVar s.store v with mType := T } :
          GeneratorVariableImpl).mType = VarType.STATE ∨
        ({ getVar s.store v with mType := T } :
          GeneratorVariableImpl).mType = VarType.COMPUTED_TRUE_CONSTANT ∨
        ({ getVar s.store v with mType := T } :
          GeneratorVariableImpl).mType =
            VarType.COMPUTED_VARIABLE_BASED_CONSTANT ∨
        ({ getVar s.store v with mType := T } :
          GeneratorVariableImpl).mType = VarType.ALGEBRAIC := by
      simpa using hTin
    rw [if_pos hguard]
    refine ⟨rfl, rfl, rfl, ?_, ?_, ?_, ?_⟩
    · simp
    · rw [getVar_set_self _ _ _ hv]
      simp
    · intro hTS
      simp [hTS]
    · intro hTS
      simp [hTS]


/-- Witness for C1: the check routine at a concrete equation with one
UNKNOWN reference reports a relevant check. -/
theorem check_resolves_single_remaining_witness :
    c1eq.mOrder = 0 ∧ (c1eq.check c1s).2.2 = true :=
  ⟨by decide,
    (check_resolves_single_remaining c1eq c1s 0 true true [0] []
      .COMPUTED_TRUE_CONSTANT (by decide) (by decide) (by decide)
      (by decide) (by decide) (by decide) (by decide) (by decide)
      (by decide) (by decide)).1⟩


set_option maxHeartbeats 2000000 in
/-- Case analysis of one check call: either the call is irrelevant (the
threaded state is returned untouched and the equation keeps its order),
or the equation was unordered and resolves one variable: the order
counter advances, the store is written at one position v that was not
computed and not a plain constant, the written record is computed and
not a constant, its index is the pre-incremented value of the counter
selected by its role, and the ghost log gains exactly that write. In
both cases the equation's reference sets only shrink. -/
theorem check_cases (eq : GeneratorEquationImpl) (s : CausalState)
    (eq' : GeneratorEquationImpl) (s' : CausalState) (r : Bool)
    (h : eq.check s = (eq', s', r)) :
    ((eq'.mVariables ⊆ eq.mVariables ∧ eq'.mOdeVariables ⊆ eq.mOdeVariables) ∧
      ((s' = s ∧ r = false ∧ eq'.mOrder = eq.mOrder) ∨
      (eq.mOrder = 0 ∧ r = true ∧
        eq'.mOrder = (s.equationOrder + 1) % WORD ∧
        s'.equationOrder = (s.equationOrder + 1) % WORD ∧
        ∃ v gv,
          s'.store = s.store.set v gv ∧
          s'.log = s.log ++
            [⟨v, decide (gv.mType = VarType.STATE), gv.mIndex⟩] ∧
          gv.mComputed = true ∧
          gv.mType ≠ .CONSTANT ∧
          gv.mIndex = (if decide (gv.mType = VarType.STATE) = true then
            (s.stateIndex + 1) % WORD else (s.variableIndex + 1) % WORD) ∧
          s'.stateIndex =
            (if decide (gv.mType = VarType.STATE) = true then
              (s.stateIndex + 1) % WORD else s.stateIndex) ∧
          s'.variableIndex =
            (if decide (gv.mType = VarType.STATE) = true then
              s.variableIndex else (s.variableIndex + 1) % WORD) ∧
          ((v ∈ eq.mVariables ∧
              GeneratorEquationImpl.knownVariable s.store v = false) ∨
            (v ∈ eq.mOdeVariables ∧
              GeneratorEquationImpl.knownOdeVariable s.store v = false)) ∧
          (getVar s.store v).mComputed = false ∧
          (getVar s.store v).mType ≠ .CONSTANT))) := by
  rw [GeneratorEquationImpl.check] at h
  generalize hB1 : (eq.mTrulyConstant
    && !GeneratorEquationImpl.containsNonTrueConstantVariables s.store
        eq.mVariables
    && !GeneratorEquationImpl.containsNonTrueConstantVariables s.store
        eq.mOdeVariables) = B1 at h
  generalize hB2 : (eq.mVariableBasedConstant
    && !GeneratorEquationImpl.containsNonConstantVariables s.store
        eq.mVariables
    && !GeneratorEquationImpl.containsNonConstantVariables s.store
        eq.mOdeVariables) = B2 at h
  generalize hF : eq.mVariables.filter
    (fun id => !GeneratorEquationImpl.knownVariable s.store id) = F at h
  generalize hG : eq.mOdeVariables.filter
    (fun id => !GeneratorEquationImpl.knownOdeVariable s.store id) = G at h
  simp only [] at h
  split at h
  · simp only [Prod.mk.injEq] at h
    obtain ⟨h1, h2, h3⟩ := h
    subst h1; subst h2; subst h3
    exact ⟨⟨fun _ ha => ha, fun _ ha => ha⟩, Or.inl ⟨rfl, rfl, rfl⟩⟩
  · split at h
    · simp only [Prod.mk.injEq] at h
      obtain ⟨h1, h2, h3⟩ := h
      subst h1; subst h2; subst h3
      exact ⟨⟨fun _ ha => ha, fun _ ha => ha⟩, Or.inl ⟨rfl, rfl, rfl⟩⟩
    · next hord hguard =>
      split at h
      · next hlen =>
        split at h
        · next hsel =>
          obtain ⟨x, hx⟩ := List.length_eq_one.mp hsel
          subst hx
          simp only [List.headD_cons] at h
          generalize hgv : (if (getVar s.store x).mType = VarType.UNKNOWN then ({ mType := (if B1 = true then VarType.COMPUTED_TRUE_CONSTANT else if B2 = true then VarType.COMPUTED_VARIABLE_BASED_CONSTANT else VarType.ALGEBRAIC), mIndex := (getVar s.store x).mIndex, mComputed := (getVar s.store x).mComputed, initialValue := (getVar s.store x).initialValue } : GeneratorVariableImpl) else getVar s.store x) = gv0 at h
          split at h
          · next hfour =>
            simp only [Prod.mk.injEq] at h
            obtain ⟨h1, h2, h3⟩ := h
            subst h1; subst h2; subst h3
            have hxm : x ∈ [x] := List.mem_singleton_self x
            have hmem : x ∈ eq.mVariables ∧
                (!GeneratorEquationImpl.knownVariable s.store x) = true := by
              rw [← hF] at hxm
              exact List.mem_filter.mp hxm
            have hknown : GeneratorEquationImpl.knownVariable s.store x
                = false := by
              simpa using hmem.2
            have hfacts : (getVar s.store x).mComputed = false ∧
                (getVar s.store x).mType ≠ .VARIABLE_OF_INTEGRATION ∧
                (getVar s.store x).mType ≠ .STATE ∧
                (getVar s.store x).mType ≠ .CONSTANT := by
              simpa [GeneratorEquationImpl.knownVariable, and_assoc]
                using hknown
            have hcomp : (getVar s.store x).mComputed = false := hfacts.1
            have horigc : (getVar s.store x).mType ≠ .CONSTANT :=
              hfacts.2.2.2
            have hmember : (x ∈ eq.mVariables ∧
                GeneratorEquationImpl.knownVariable s.store x = false) ∨
                (x ∈ eq.mOdeVariables ∧
                  GeneratorEquationImpl.knownOdeVariable s.store x
                    = false) := Or.inl ⟨hmem.1, hknown⟩
            refine ⟨⟨?_, ?_⟩, Or.inr ⟨by omega, rfl, rfl, rfl, x, _, rfl,
              rfl, rfl, ?_, rfl, ?_, ?_, hmember, hcomp, horigc⟩⟩
            · intro a ha
              first
              | exact ha
              | (rw [← hF] at ha; exact List.mem_of_mem_filter ha)
              | (rw [← hG] at ha; exact List.mem_of_mem_filter ha)
            · intro a ha
              first
              | exact ha
              | (rw [← hG] at ha; exact List.mem_of_mem_filter ha)
              | (rw [← hF] at ha; exact List.mem_of_mem_filter ha)
            · rcases hfour with h4 | h4 | h4 | h4 <;> simp [h4]
            · split <;> simp_all
            · split <;> simp_all
          · simp only [Prod.mk.injEq] at h
            obtain ⟨h1, h2, h3⟩ := h
            subst h1; subst h2; subst h3
            refine ⟨⟨?_, ?_⟩, Or.inl ⟨rfl, rfl, rfl⟩⟩
            · intro a ha
              first
              | exact ha
              | (rw [← hF] at ha; exact List.mem_of_mem_filter ha)
              | (rw [← hG] at ha; exact List.mem_of_mem_filter ha)
            · intro a ha
              first
              | exact ha
              | (rw [← hG] at ha; exact List.mem_of_mem_filter ha)
              | (rw [← hF] at ha; exact List.mem_of_mem_filter ha)
        · next hsel =>
          have hzero : F.length = 0 ∧ G.length = 1 := by omega
          have hFnil : F = [] := List.length_eq_zero.mp hzero.1
          obtain ⟨x, hx⟩ := List.length_eq_one.mp hzero.2
          subst hx
          simp only [List.headD_cons] at h
          generalize hgv : (if (getVar s.store x).mType = VarType.UNKNOWN then ({ mType := (if B1 = true then VarType.COMPUTED_TRUE_CONSTANT else if B2 = true then VarType.COMPUTED_VARIABLE_BASED_CONSTANT else VarType.ALGEBRAIC), mIndex := (getVar s.store x).mIndex, mComputed := (getVar s.store x).mComputed, initialValue := (getVar s.store x).initialValue } : GeneratorVariableImpl) else getVar s.store x) = gv0 at h
          split at h
          · next hfour =>
            simp only [Prod.mk.injEq] at h
            obtain ⟨h1, h2, h3⟩ := h
            subst h1; subst h2; subst h3
            have hxm : x ∈ [x] := List.mem_singleton_self x
            have hmem : x ∈ eq.mOdeVariables ∧
                (!GeneratorEquationImpl.knownOdeVariable s.store x)
                  = true := by
              rw [← hG] at hxm
              exact List.mem_filter.mp hxm
            have hknown : GeneratorEquationImpl.knownOdeVariable s.store x
                = false := by
              simpa using hmem.2
            have hodefacts : (getVar s.store x).mComputed = false ∧
                (getVar s.store x).mType ≠ .VARIABLE_OF_INTEGRATION := by
              simpa [GeneratorEquationImpl.knownOdeVariable] using hknown
            have hcomp : (getVar s.store x).mComputed = false :=
              hodefacts.1
            have horigc : (getVar s.store x).mType ≠ .CONSTANT := by
              intro horig
              by_cases hu : (getVar s.store x).mType = VarType.UNKNOWN
              · rw [horig] at hu
                exact absurd hu (by decide)
              · rw [if_neg hu] at hgv
                rw [← hgv, horig] at hfour
                rcases hfour with h4 | h4 | h4 | h4 <;> exact absurd h4
                  (by decide)
            have hmember : (x ∈ eq.mVariables ∧
                GeneratorEquationImpl.knownVariable s.store x = false) ∨
                (x ∈ eq.mOdeVariables ∧
                  GeneratorEquationImpl.knownOdeVariable s.store x
                    = false) := Or.inr ⟨hmem.1, hknown⟩
            refine ⟨⟨?_, ?_⟩, Or.inr ⟨by omega, rfl, rfl, rfl, x, _, rfl,
              rfl, rfl, ?_, rfl, ?_, ?_, hmember, hcomp, horigc⟩⟩
            · intro a ha
              first
              | exact ha
              | (rw [← hF] at ha; exact List.mem_of_mem_filter ha)
              | (rw [← hG] at ha; exact List.mem_of_mem_filter ha)
            · intro a ha
              first
              | exact ha
              | (rw [← hG] at ha; exact List.mem_of_mem_filter ha)
              | (rw [← hF] at ha; exact List.mem_of_mem_filter ha)
            · rcases hfour with h4 | h4 | h4 | h4 <;> simp [h4]
            · split <;> simp_all
            · split <;> simp_all
          · simp only [Prod.mk.injEq] at h
            obtain ⟨h1, h2, h3⟩ := h
            subst h1; subst h2; subst h3
            refine ⟨⟨?_, ?_⟩, Or.inl ⟨rfl, rfl, rfl⟩⟩
            · intro a ha
              first
              | exact ha
              | (rw [← hF] at ha; exact List.mem_of_mem_filter ha)
              | (rw [← hG] at ha; exact List.mem_of_mem_filter ha)
            · intro a ha
              first
              | exact ha
              | (rw [← hG] at ha; exact List.mem_of_mem_filter ha)
              | (rw [← hF] at ha; exact List.mem_of_mem_filter ha)
      · simp only [Prod.mk.injEq] at h
        obtain ⟨h1, h2, h3⟩ := h
        subst h1; subst h2; subst h3
        refine ⟨⟨?_, ?_⟩, Or.inl ⟨rfl, rfl, rfl⟩⟩
        · intro a ha
          rw [← hF] at ha
          exact List.mem_of_mem_filter ha
        · intro a ha
          rw [← hG] at ha
          exact List.mem_of_mem_filter ha

/-- ordersOf distributes over cons: an equation contributes its order
exactly when that order is nonzero. -/
theorem ordersOf_cons (e : GeneratorEquationImpl)
    (l : List GeneratorEquationImpl) :
    ordersOf (e :: l) =
      (if e.mOrder ≠ 0 then [e.mOrder] else []) ++ ordersOf l := by
  by_cases h : e.mOrder = 0 <;> simp [ordersOf, List.filter_cons, h]

/-- A pass returns as many equations as it was given. -/
theorem runPassAux_length (eqs : List GeneratorEquationImpl) :
    ∀ s : CausalState, (runPassAux eqs s).1.length = eqs.length := by
  induction eqs with
  | nil => intro s; rfl
  | cons e es ih =>
    intro s
    rcases hc : e.check s with ⟨e', s', r⟩
    simp [runPassAux, hc, ih]

/-- Multiset invariant of one pass: if the orders assigned so far
(a background list B plus the nonzero orders of the equations of this
pass) are a permutation of 1..counter, the same holds after the pass. -/
theorem runPassAux_orders (eqs : List GeneratorEquationImpl) :
    ∀ (s : CausalState) (B : List Nat),
      (B ++ ordersOf eqs).Perm (List.range' 1 s.equationOrder) →
      B.length + eqs.length < WORD →
      (B ++ ordersOf (runPassAux eqs s).1).Perm
        (List.range' 1 (runPassAux eqs s).2.1.equationOrder) := by
  induction eqs with
  | nil => intro s B hperm _; simpa [runPassAux] using hperm
  | cons e es ih =>
    intro s B hperm hlen
    rcases hc : e.check s with ⟨e', s', r⟩
    obtain ⟨-, hcase⟩ := check_cases e s e' s' r hc
    simp only [runPassAux, hc]
    rcases hcase with ⟨hs, -, hord⟩ | ⟨hord0, -, hord, hctr, -⟩
    · subst hs
      rw [ordersOf_cons, hord]
      have hperm' :
          ((B ++ (if e.mOrder ≠ 0 then [e.mOrder] else [])) ++ ordersOf es).Perm
            (List.range' 1 s'.equationOrder) := by
        rw [List.append_assoc]
        rw [ordersOf_cons] at hperm
        exact hperm
      have hlen' :
          (B ++ (if e.mOrder ≠ 0 then [e.mOrder] else [])).length + es.length
            < WORD := by
        have : (if e.mOrder ≠ 0 then [e.mOrder] else ([] : List Nat)).length
            ≤ 1 := by split <;> simp
        simp only [List.length_append, List.length_cons] at hlen ⊢
        omega
      have := ih s' (B ++ (if e.mOrder ≠ 0 then [e.mOrder] else [])) hperm'
        hlen'
      rw [List.append_assoc] at this
      exact this
    · -- the head equation was just assigned order counter+1
      have hc0 : s.equationOrder = B.length + (ordersOf es).length := by
        have hlen0 := hperm.length_eq
        rw [ordersOf_cons] at hlen0
        simp [hord0, List.length_range'] at hlen0
        simpa [List.length_append] using hlen0.symm
      have host : (ordersOf es).length ≤ es.length := by
        have h1 : (es.filter fun e => decide (e.mOrder ≠ 0)).length
            ≤ es.length := List.length_filter_le _ es
        simpa [ordersOf] using h1
      have hlt : s.equationOrder + 1 < WORD := by
        simp only [List.length_cons] at hlen
        omega
      have hmod : (s.equationOrder + 1) % WORD = s.equationOrder + 1 :=
        Nat.mod_eq_of_lt hlt
      rw [ordersOf_cons, hord, hmod]
      have hne : ¬(s.equationOrder + 1 = 0) := by omega
      rw [if_pos hne]
      have hperm0 : (B ++ ordersOf es).Perm
          (List.range' 1 s.equationOrder) := by
        rw [ordersOf_cons, hord0] at hperm
        simpa using hperm
      have hperm' :
          ((B ++ [s.equationOrder + 1]) ++ ordersOf es).Perm
            (List.range' 1 s'.equationOrder) := by
        rw [hctr, hmod, List.range'_1_concat]
        have hstep : ((B ++ [s.equationOrder + 1]) ++ ordersOf es).Perm
            ((B ++ ordersOf es) ++ [s.equationOrder + 1]) := by
          rw [List.append_assoc, List.append_assoc]
          exact List.Perm.append_left B List.perm_append_comm
        have hstep2 : ((B ++ ordersOf es) ++ [s.equationOrder + 1]).Perm
            (List.range' 1 s.equationOrder ++ [1 + s.equationOrder]) := by
          have h1 : [s.equationOrder + 1] = [1 + s.equationOrder] := by
            rw [Nat.add_comm]
          rw [h1]
          exact hperm0.append_right _
        exact hstep.trans hstep2
      have hlen' : (B ++ [s.equationOrder + 1]).length + es.length
          < WORD := by
        simp only [List.length_append, List.length_cons,
          List.length_nil] at hlen ⊢
        omega
      have := ih s' (B ++ [s.equationOrder + 1]) hperm' hlen'
      rw [List.append_assoc] at this
      simpa using this


/-- The causalization loop preserves the orders invariant and the number
of equations, for any fuel. -/
theorem causalLoop_orders (fuel : Nat) :
    ∀ (eqs : List GeneratorEquationImpl) (s : CausalState),
      (ordersOf eqs).Perm (List.range' 1 s.equationOrder) →
      eqs.length < WORD →
      (ordersOf (causalLoop fuel eqs s).1).Perm
        (List.range' 1 (causalLoop fuel eqs s).2.equationOrder) := by
  induction fuel with
  | zero => intro eqs s hperm _; exact hperm
  | succ fuel ih =>
    intro eqs s hperm hlen
    rcases hp : runPassAux eqs s with ⟨eqs', s', rel⟩
    have horders := runPassAux_orders eqs s [] (by simpa using hperm)
      (by simpa using hlen)
    have hlen' := runPassAux_length eqs s
    rw [hp] at horders hlen'
    simp only [] at horders hlen'
    simp only [causalLoop, hp]
    by_cases hrel : rel = true
    · rw [if_pos hrel]
      exact ih eqs' s' (by simpa using horders) (by rw [hlen']; exact hlen)
    · rw [if_neg hrel]
      simpa using horders

/-- C2: in every run of process(model), in particular every run that
finishes with zero errors, the nonzero order values carried by the final
equation list are exactly 1, 2, ..., N as a multiset, where N is the
number of equations that received an order; equations never resolved
keep order 0 and so contribute nothing to ordersOf. -/
theorem orders_form_contiguous_range (s : ProcState)
    (h0 : ∀ e ∈ s.mEquations, e.mOrder = 0)
    (hlen : s.mEquations.length < WORD)
    (hok : (processModelCore s).errorCount = 0) :
    (ordersOf (processModelCore s).mEquations).Perm
      (List.range' 1 (ordersOf (processModelCore s).mEquations).length) := by
  have hord0 : ordersOf s.mEquations = [] := by
    have hf : s.mEquations.filter (fun e => decide (e.mOrder ≠ 0)) = [] :=
      List.filter_eq_nil_iff.mpr fun e he => by simp [h0 e he]
    simp only [ordersOf, hf, List.map_nil]
  rcases hc : constIndexPass 0 s.mVariables MAX_SIZE_T with ⟨vars', vi, clog⟩
  by_cases he : s.errorCount = 0
  · simp only [processModelCore, hc, he, if_true]
    rcases hl : causalLoop (s.mEquations.length + 1) s.mEquations
      { store := vars'
        equationOrder := 0
        stateIndex := MAX_SIZE_T
        variableIndex := vi
        log := s.log ++ clog } with ⟨eqs', cs'⟩
    have hinv := causalLoop_orders (s.mEquations.length + 1) s.mEquations
      { store := vars'
        equationOrder := 0
        stateIndex := MAX_SIZE_T
        variableIndex := vi
        log := s.log ++ clog }
      (by simp [hord0, List.range']) hlen
    rw [hl] at hinv
    simp only [] at hinv
    have hN : (ordersOf eqs').length = cs'.equationOrder := by
      have := hinv.length_eq
      simpa [List.length_range'] using this
    show (ordersOf eqs').Perm (List.range' 1 (ordersOf eqs').length)
    rw [hN]
    exact hinv
  · simp only [processModelCore, hc, he, if_false]
    rw [hord0]
    simp [List.range']


/-- Witness: the contiguous-orders theorem applies to a concrete run
that finishes with zero errors and one ordered equation. -/
theorem orders_form_contiguous_range_witness :
    ((∀ e ∈ gOrders.mEquations, e.mOrder = 0) ∧
      gOrders.mEquations.length < WORD ∧
      (processModelCore gOrders).errorCount = 0) ∧
    (ordersOf (processModelCore gOrders).mEquations).Perm
      (List.range' 1 (ordersOf (processModelCore gOrders).mEquations).length) :=
  ⟨⟨by decide, by decide, by decide⟩,
    orders_form_contiguous_range gOrders (by decide) (by decide) (by decide)⟩


/-- A pass that reports no relevant check leaves every equation's order
unchanged (positionally). -/
theorem runPassAux_false_orders (eqs : List GeneratorEquationImpl) :
    ∀ (s : CausalState) (i : Nat), (runPassAux eqs s).2.2 = false →
      ((runPassAux eqs s).1.getD i default).mOrder =
        (eqs.getD i default).mOrder := by
  induction eqs with
  | nil => intro s i _; rfl
  | cons e es ih =>
    intro s i h
    rcases hc : e.check s with ⟨e', s', r⟩
    simp only [runPassAux, hc] at h ⊢
    have hr : r = false ∧ (runPassAux es s').2.2 = false := by
      simpa [Bool.or_eq_false_iff] using h
    obtain ⟨-, hcase⟩ := check_cases e s e' s' r hc
    rcases hcase with ⟨hs, -, hord⟩ | ⟨-, hrt, -⟩
    · cases i with
      | zero => simpa using hord
      | succ i => simpa using ih s' i hr.2
    · rw [hrt] at hr
      exact absurd hr.1 (by simp)

/-- A pass that reports a relevant check has ordered some previously
unordered equation. -/
theorem runPassAux_true_progress (eqs : List GeneratorEquationImpl) :
    ∀ s : CausalState,
      s.equationOrder + eqs.countP (fun e => decide (e.mOrder = 0)) < WORD →
      (runPassAux eqs s).2.2 = true →
      ∃ i, i < eqs.length ∧ (eqs.getD i default).mOrder = 0 ∧
        ((runPassAux eqs s).1.getD i default).mOrder ≠ 0 := by
  induction eqs with
  | nil => intro s _ h; exact absurd h (by simp [runPassAux])
  | cons e es ih =>
    intro s hW h
    rcases hc : e.check s with ⟨e', s', r⟩
    simp only [runPassAux, hc] at h ⊢
    obtain ⟨-, hcase⟩ := check_cases e s e' s' r hc
    rcases hcase with ⟨hs, hrf, hord⟩ | ⟨h0, -, hord, -, -⟩
    · subst hs
      rw [hrf, Bool.false_or] at h
      have hW' : s'.equationOrder +
          es.countP (fun e => decide (e.mOrder = 0)) < WORD := by
        simp only [List.countP_cons] at hW
        omega
      obtain ⟨i, hi, h1, h2⟩ := ih s' hW' h
      exact ⟨i + 1, by simpa using hi, by simpa using h1, by simpa using h2⟩
    · refine ⟨0, by simp, by simpa using h0, ?_⟩
      have hcnt : (1 : Nat) ≤
          (e :: es).countP (fun e => decide (e.mOrder = 0)) := by
        simp [List.countP_cons, h0]
      have hmod : (s.equationOrder + 1) % WORD = s.equationOrder + 1 :=
        Nat.mod_eq_of_lt (by omega)
      simp only [List.getD_cons_zero]
      rw [hord, hmod]
      omega

/-- Measure facts of one pass: the order counter never decreases, the
sum counter + number of unordered equations never increases, and a pass
that reports a relevant check strictly decreases the number of unordered
equations. -/
theorem runPassAux_measure (eqs : List GeneratorEquationImpl) :
    ∀ s : CausalState,
      s.equationOrder + eqs.countP (fun e => decide (e.mOrder = 0)) < WORD →
      s.equationOrder ≤ (runPassAux eqs s).2.1.equationOrder ∧
      (runPassAux eqs s).2.1.equationOrder +
          (runPassAux eqs s).1.countP (fun e => decide (e.mOrder = 0)) ≤
        s.equationOrder + eqs.countP (fun e => decide (e.mOrder = 0)) ∧
      ((runPassAux eqs s).2.2 = true →
        (runPassAux eqs s).1.countP (fun e => decide (e.mOrder = 0)) <
          eqs.countP (fun e => decide (e.mOrder = 0))) := by
  induction eqs with
  | nil =>
    intro s _
    refine ⟨le_rfl, by simp [runPassAux], ?_⟩
    intro h
    exact absurd h (by simp [runPassAux])
  | cons e es ih =>
    intro s hW
    rcases hc : e.check s with ⟨e', s', r⟩
    obtain ⟨-, hcase⟩ := check_cases e s e' s' r hc
    rcases hp : runPassAux es s' with ⟨es2, s2, r2⟩
    simp only [runPassAux, hc, hp]
    rcases hcase with ⟨hs, hrf, hord⟩ | ⟨h0, hrt, hord, hctr, -⟩
    · subst hs
      subst hrf
      have hW' : s'.equationOrder +
          es.countP (fun e => decide (e.mOrder = 0)) < WORD := by
        simp only [List.countP_cons] at hW
        omega
      obtain ⟨ihm, ihs, ihp2⟩ := ih s' hW'
      rw [hp] at ihm ihs ihp2
      simp only [] at ihm ihs ihp2
      refine ⟨ihm, ?_, ?_⟩
      · by_cases h0e : e.mOrder = 0 <;>
          simp [List.countP_cons, hord, h0e] <;> omega
      · intro hflag
        rw [Bool.false_or] at hflag
        have := ihp2 hflag
        by_cases h0e : e.mOrder = 0 <;>
          simp [List.countP_cons, hord, h0e] <;> omega
    · subst hrt
      have hcnt1 : (1 : Nat) ≤
          (e :: es).countP (fun e => decide (e.mOrder = 0)) := by
        simp [List.countP_cons, h0]
      have hmod : (s.equationOrder + 1) % WORD = s.equationOrder + 1 :=
        Nat.mod_eq_of_lt (by omega)
      have hW' : s'.equationOrder +
          es.countP (fun e => decide (e.mOrder = 0)) < WORD := by
        rw [hctr, hmod]
        simp only [List.countP_cons, h0, decide_True, if_true] at hW
        omega
      obtain ⟨ihm, ihs, -⟩ := ih s' hW'
      rw [hp] at ihm ihs
      simp only [] at ihm ihs
      have he' : ¬(e'.mOrder = 0) := by
        rw [hord, hmod]
        omega
      have hctr' : s'.equationOrder = s.equationOrder + 1 := by
        rw [hctr, hmod]
      refine ⟨by omega, ?_, ?_⟩
      · simp [List.countP_cons, h0, he']
        omega
      · intro _
        simp [List.countP_cons, h0, he']
        omega


/-- Within at most as many passes as there are unordered equations, a
pass reports no relevant check. -/
theorem passes_quiesce : ∀ (k : Nat) (eqs : List GeneratorEquationImpl)
    (s : CausalState),
    eqs.countP (fun e => decide (e.mOrder = 0)) ≤ k →
    s.equationOrder + eqs.countP (fun e => decide (e.mOrder = 0)) < WORD →
    ∃ n, n ≤ eqs.countP (fun e => decide (e.mOrder = 0)) ∧
      (runPassAux (passIter n eqs s).1 (passIter n eqs s).2).2.2 = false := by
  intro k
  induction k with
  | zero =>
    intro eqs s hk hW
    by_cases hfl : (runPassAux eqs s).2.2 = true
    · have := (runPassAux_measure eqs s hW).2.2 hfl
      omega
    · exact ⟨0, Nat.zero_le _, by rwa [Bool.not_eq_true] at hfl⟩
  | succ k ih =>
    intro eqs s hk hW
    by_cases hfl : (runPassAux eqs s).2.2 = true
    · obtain ⟨hmono, hsum, hprog⟩ := runPassAux_measure eqs s hW
      have hlt := hprog hfl
      obtain ⟨m, hm, hq⟩ := ih (runPassAux eqs s).1 (runPassAux eqs s).2.1
        (by omega) (by omega)
      exact ⟨m + 1, by omega, hq⟩
    · exact ⟨0, Nat.zero_le _, by rwa [Bool.not_eq_true] at hfl⟩

/-- Unfolding step of passIter. -/
theorem passIter_succ (n : Nat) (eqs : List GeneratorEquationImpl)
    (s : CausalState) :
    passIter (n + 1) eqs s =
      passIter n (runPassAux eqs s).1 (runPassAux eqs s).2.1 := rfl

/-- If the first n passes each report a relevant check and pass n does
not, the fuelled loop with any larger fuel exits exactly after pass n,
keeping that pass's equations and state. -/
theorem causalLoop_eq_passIter : ∀ (n : Nat)
    (eqs : List GeneratorEquationImpl) (s : CausalState) (fuel : Nat),
    (∀ m, m < n →
      (runPassAux (passIter m eqs s).1 (passIter m eqs s).2).2.2 = true) →
    (runPassAux (passIter n eqs s).1 (passIter n eqs s).2).2.2 = false →
    n < fuel →
    causalLoop fuel eqs s =
      ((runPassAux (passIter n eqs s).1 (passIter n eqs s).2).1,
        (runPassAux (passIter n eqs s).1 (passIter n eqs s).2).2.1) := by
  intro n
  induction n with
  | zero =>
    intro eqs s fuel hprog hq hf
    obtain ⟨f, rfl⟩ : ∃ f, fuel = f + 1 := ⟨fuel - 1, by omega⟩
    rcases hp : runPassAux eqs s with ⟨eqs', s', rel⟩
    rw [show passIter 0 eqs s = (eqs, s) from rfl] at hq ⊢
    rw [hp] at hq
    simp only [] at hq
    simp only [causalLoop, hp, hq, if_false]
    simp
  | succ n ih =>
    intro eqs s fuel hprog hq hf
    obtain ⟨f, rfl⟩ : ∃ f, fuel = f + 1 := ⟨fuel - 1, by omega⟩
    rcases hp : runPassAux eqs s with ⟨eqs', s', rel⟩
    have h0 := hprog 0 (Nat.succ_pos n)
    rw [show passIter 0 eqs s = (eqs, s) from rfl, hp] at h0
    simp only [] at h0
    simp only [causalLoop, hp, h0, if_true]
    have hstep : ∀ m, passIter m eqs' s' = passIter (m + 1) eqs s := by
      intro m
      rw [passIter_succ, hp]
    rw [ih eqs' s' f ?_ ?_ (by omega)]
    · rw [hstep n]
    · intro m hm
      rw [hstep m]
      exact hprog (m + 1) (by omega)
    · rw [hstep n]
      exact hq

/-- C9: the causalization fixpoint loop terminates. A pass reports a
relevant check exactly when it assigns an order to some previously
unordered equation; and within at most as many passes as there are
unordered equations a pass reports no relevant check, at which point the
fuelled loop (with any sufficient fuel, in particular the fuel
processModelCore uses) exits with that pass's result. -/
theorem causalization_loop_terminates (eqs : List GeneratorEquationImpl)
    (s : CausalState)
    (hW : s.equationOrder + eqs.countP (fun e => decide (e.mOrder = 0))
      < WORD) :
    ((runPassAux eqs s).2.2 = true ↔
      ∃ i, i < eqs.length ∧ (eqs.getD i default).mOrder = 0 ∧
        ((runPassAux eqs s).1.getD i default).mOrder ≠ 0) ∧
    ∃ n, n ≤ eqs.countP (fun e => decide (e.mOrder = 0)) ∧
      (runPassAux (passIter n eqs s).1 (passIter n eqs s).2).2.2 = false ∧
      ∀ fuel, n < fuel → causalLoop fuel eqs s =
        ((runPassAux (passIter n eqs s).1 (passIter n eqs s).2).1,
          (runPassAux (passIter n eqs s).1 (passIter n eqs s).2).2.1) := by
  constructor
  · constructor
    · exact runPassAux_true_progress eqs s hW
    · rintro ⟨i, hi, h1, h2⟩
      by_cases hfl : (runPassAux eqs s).2.2 = true
      · exact hfl
      · rw [Bool.not_eq_true] at hfl
        exact absurd (runPassAux_false_orders eqs s i hfl |>.trans h1) h2
  · obtain ⟨n, hn, hq⟩ := passes_quiesce
      (eqs.countP (fun e => decide (e.mOrder = 0))) eqs s le_rfl hW
    have hex : ∃ m,
        (runPassAux (passIter m eqs s).1 (passIter m eqs s).2).2.2
          = false := ⟨n, hq⟩
    refine ⟨Nat.find hex, le_trans (Nat.find_min' hex hq) hn,
      Nat.find_spec hex, ?_⟩
    intro fuel hfuel
    apply causalLoop_eq_passIter (Nat.find hex) eqs s fuel ?_
      (Nat.find_spec hex) hfuel
    intro m hm
    have := Nat.find_min hex hm
    rwa [Bool.not_eq_false] at this


/-- Witness: the termination theorem applies to a concrete one-equation
causalization run. -/
theorem causalization_loop_terminates_witness :
    (c1s.equationOrder +
        [c1eq].countP (fun e => decide (e.mOrder = 0)) < WORD) ∧
    (((runPassAux [c1eq] c1s).2.2 = true ↔
      ∃ i, i < [c1eq].length ∧ ([c1eq].getD i default).mOrder = 0 ∧
        ((runPassAux [c1eq] c1s).1.getD i default).mOrder ≠ 0) ∧
    ∃ n, n ≤ [c1eq].countP (fun e => decide (e.mOrder = 0)) ∧
      (runPassAux (passIter n [c1eq] c1s).1
        (passIter n [c1eq] c1s).2).2.2 = false ∧
      ∀ fuel, n < fuel → causalLoop fuel [c1eq] c1s =
        ((runPassAux (passIter n [c1eq] c1s).1
            (passIter n [c1eq] c1s).2).1,
          (runPassAux (passIter n [c1eq] c1s).1
            (passIter n [c1eq] c1s).2).2.1)) :=
  ⟨by decide, causalization_loop_terminates [c1eq] c1s (by decide)⟩


/-- Full characterization of the constant-index loop: it preserves the
store's length, logs only non-state writes at strictly increasing
positions of the walked segment, marks every logged position as a plain
CONSTANT record, advances the counter once per write, and draws the
pre-incremented counter values in sequence. -/
theorem constIndexPass_spec (vs : List GeneratorVariableImpl) :
    ∀ base c : Nat,
      (constIndexPass base vs c).1.length = vs.length ∧
      (constIndexPass base vs c).2.2.length ≤ vs.length ∧
      (∀ w ∈ (constIndexPass base vs c).2.2,
        base ≤ w.varId ∧ w.varId < base + vs.length ∧
        w.isState = false ∧
        ((constIndexPass base vs c).1.getD (w.varId - base)
          default).mType = .CONSTANT) ∧
      List.Pairwise (fun a b => a.varId < b.varId)
        (constIndexPass base vs c).2.2 ∧
      (c < WORD →
        (constIndexPass base vs c).2.1 =
          (c + (constIndexPass base vs c).2.2.length) % WORD ∧
        (constIndexPass base vs c).2.2.map IdxWrite.value =
          (List.range (constIndexPass base vs c).2.2.length).map
            (fun k => (c + 1 + k) % WORD)) := by
  induction vs with
  | nil =>
    intro base c
    refine ⟨rfl, by simp [constIndexPass], by simp [constIndexPass],
      by simp [constIndexPass], ?_⟩
    intro hc
    exact ⟨by simp [constIndexPass, Nat.mod_eq_of_lt hc],
      by simp [constIndexPass]⟩
  | cons v vs ih =>
    intro base c
    by_cases hv : v.mType = .CONSTANT
    · rcases hr : constIndexPass (base + 1) vs ((c + 1) % WORD)
        with ⟨vs2, c2, log2⟩
      have hIH := ih (base + 1) ((c + 1) % WORD)
      rw [hr] at hIH
      simp only [] at hIH
      obtain ⟨ihl, ihlen, ihw, ihpw, ihc⟩ := hIH
      have hstep : constIndexPass base (v :: vs) c =
          ({ v with mIndex := (c + 1) % WORD } :: vs2, c2,
            ⟨base, false, (c + 1) % WORD⟩ :: log2) := by
        simp [constIndexPass, hv, hr]
      rw [hstep]
      refine ⟨by simp [ihl], by simp only [List.length_cons]; omega,
        ?_, ?_, ?_⟩
      · intro w hw
        rcases List.mem_cons.mp hw with hwh | hwt
        · subst hwh
          refine ⟨le_rfl, by simp only [List.length_cons]; omega, rfl, ?_⟩
          rw [Nat.sub_self]
          simpa using hv
        · obtain ⟨hb1, hb2, hb3, hb4⟩ := ihw w hwt
          refine ⟨by omega, by simp only [List.length_cons]; omega,
            hb3, ?_⟩
          have hsub : w.varId - base = (w.varId - (base + 1)) + 1 := by
            omega
          rw [hsub, List.getD_cons_succ]
          exact hb4
      · refine List.pairwise_cons.mpr ⟨?_, ihpw⟩
        intro b hb
        have := (ihw b hb).1
        show base < b.varId
        omega
      · intro hc
        have hW0 : 0 < WORD := by decide
        have hmod1 : (c + 1) % WORD < WORD := Nat.mod_lt _ hW0
        obtain ⟨ihc1, ihc2⟩ := ihc hmod1
        constructor
        · rw [ihc1, Nat.mod_add_mod]
          have harr : c + 1 + log2.length = c + (log2.length + 1) := by
            omega
          simp [harr]
        · simp only [List.map_cons, List.length_cons,
            List.range_succ_eq_map, List.map_map]
          congr 1
          rw [ihc2]
          apply List.map_congr_left
          intro k hk
          simp only [Function.comp_apply, Nat.succ_eq_add_one]
          have harr : (c + 1) % WORD + 1 + k = (c + 1) % WORD + (1 + k) := by
            omega
          rw [harr, Nat.mod_add_mod]
          have harr2 : c + 1 + (1 + k) = c + 1 + (k + 1) := by omega
          rw [harr2]
    · rcases hr : constIndexPass (base + 1) vs c with ⟨vs2, c2, log2⟩
      have hIH := ih (base + 1) c
      rw [hr] at hIH
      simp only [] at hIH
      obtain ⟨ihl, ihlen, ihw, ihpw, ihc⟩ := hIH
      have hstep : constIndexPass base (v :: vs) c =
          (v :: vs2, c2, log2) := by
        simp [constIndexPass, hv, hr]
      rw [hstep]
      refine ⟨by simp [ihl], by simp only [List.length_cons]; omega,
        ?_, ihpw, ?_⟩
      · intro w hw
        obtain ⟨hb1, hb2, hb3, hb4⟩ := ihw w hw
        refine ⟨by omega, by simp only [List.length_cons]; omega,
          hb3, ?_⟩
        have hsub : w.varId - base = (w.varId - (base + 1)) + 1 := by
          omega
        rw [hsub, List.getD_cons_succ]
        exact hb4
      · intro hc
        exact ihc hc


/-- A log satisfying the invariant has at most one entry per store
position, hence no more entries than the store has records. -/
theorem LogInv.length_le {store : List GeneratorVariableImpl}
    {log : List IdxWrite} {sIdx vIdx : Nat}
    (h : LogInv store log sIdx vIdx) : log.length ≤ store.length := by
  have hsub : (log.map IdxWrite.varId) ⊆ List.range store.length := by
    intro x hx
    obtain ⟨w, hw, rfl⟩ := List.mem_map.mp hx
    exact List.mem_range.mpr (h.2.1 w hw).1
  have := (h.1.subperm hsub).length_le
  simpa using this

/-- Pre-incrementing a counter that wrapped from the maximum size_t
value after k draws yields k, as long as k has not wrapped again. -/
theorem wrap_succ (k : Nat) (hk : k < WORD) :
    ((MAX_SIZE_T + k) % WORD + 1) % WORD = k := by
  rw [Nat.mod_add_mod]
  have hMW : MAX_SIZE_T + k + 1 = WORD + k := by
    have h1 : MAX_SIZE_T + 1 = WORD := by decide
    omega
  rw [hMW, Nat.add_mod_left, Nat.mod_eq_of_lt hk]

/-- Pre-incrementing the wrapped counter advances the draw count. -/
theorem wrap_succ_formula (k : Nat) :
    ((MAX_SIZE_T + k) % WORD + 1) % WORD =
      (MAX_SIZE_T + (k + 1)) % WORD := by
  rw [Nat.mod_add_mod]
  have h1 : MAX_SIZE_T + k + 1 = MAX_SIZE_T + (k + 1) := by omega
  rw [h1]

set_option maxHeartbeats 1000000 in
/-- One check call preserves the index-write invariant, the store's
length, and the bound on the equation's variable references. -/
theorem check_LogInv (eq : GeneratorEquationImpl) (s : CausalState)
    (hinv : LogInv s.store s.log s.stateIndex s.variableIndex)
    (hb : RefsBound eq s.store.length)
    (hW : s.store.length < WORD) :
    LogInv (eq.check s).2.1.store (eq.check s).2.1.log
      (eq.check s).2.1.stateIndex (eq.check s).2.1.variableIndex ∧
    (eq.check s).2.1.store.length = s.store.length ∧
    RefsBound (eq.check s).1 s.store.length := by
  rcases hc : eq.check s with ⟨eq', s', r⟩
  obtain ⟨⟨hsv, hso⟩, hcase⟩ := check_cases eq s eq' s' r hc
  simp only []
  have hb' : RefsBound eq' s.store.length :=
    ⟨fun id hid => hb.1 id (hsv hid), fun id hid => hb.2 id (hso hid)⟩
  rcases hcase with ⟨hs, -, -⟩ |
    ⟨-, -, -, -, v, gv, hst, hlg, hgc, hgnc, hgi, hsi, hvi, hmem, hoc,
      honc⟩
  · subst hs
    exact ⟨hinv, rfl, hb'⟩
  · have hlenle : s.log.length ≤ s.store.length := hinv.length_le
    obtain ⟨hnd, hlw, hsidx, hvidx, hsval, hvval⟩ := hinv
    have hvlt : v < s.store.length := by
      rcases hmem with ⟨hm, -⟩ | ⟨hm, -⟩
      · exact hb.1 v hm
      · exact hb.2 v hm
    have hnotlogged : ∀ w ∈ s.log, w.varId ≠ v := by
      intro w hw hwv
      rcases (hlw w hw).2 with hC | hCo
      · rw [hwv] at hC
        exact honc hC
      · rw [hwv, hoc] at hCo
        exact absurd hCo (by simp)
    have hscb : s.log.countP IdxWrite.isState ≤ s.log.length :=
      List.countP_le_length _
    have hvcb : s.log.countP (fun w => !w.isState) ≤ s.log.length :=
      List.countP_le_length _
    have hget_old : ∀ w ∈ s.log,
        getVar (s.store.set v gv) w.varId = getVar s.store w.varId :=
      fun w hw => getVar_set_ne _ _ _ _ (Ne.symm (hnotlogged w hw))
    have hget_new : getVar (s.store.set v gv) v = gv :=
      getVar_set_self _ _ _ hvlt
    rw [hst, hlg, hsi, hvi]
    refine ⟨⟨?_, ?_, ?_, ?_, ?_, ?_⟩, by simp, hb'⟩
    · rw [List.map_append, List.nodup_append]
      refine ⟨hnd, by simp, ?_⟩
      intro a ha hamem
      obtain ⟨w, hw, rfl⟩ := List.mem_map.mp ha
      have : w.varId = v := by simpa using hamem
      exact hnotlogged w hw this
    · intro w hw
      rcases List.mem_append.mp hw with hwl | hwr
      · refine ⟨by simpa using (hlw w hwl).1, ?_⟩
        rw [hget_old w hwl]
        exact (hlw w hwl).2
      · have hwe : w = ⟨v, decide (gv.mType = VarType.STATE), gv.mIndex⟩ :=
          by simpa using hwr
        subst hwe
        refine ⟨by simpa using hvlt, ?_⟩
        simp only []
        rw [hget_new]
        exact Or.inr hgc
    · by_cases hstt : gv.mType = VarType.STATE
      · have hd : decide (gv.mType = VarType.STATE) = true := by
          simp [hstt]
        have hcnt : (s.log ++
            [(⟨v, decide (gv.mType = VarType.STATE), gv.mIndex⟩ :
              IdxWrite)]).countP IdxWrite.isState =
            s.log.countP IdxWrite.isState + 1 := by
          rw [List.countP_append]
          simp [List.countP_cons, IdxWrite.isState, hd]
        rw [hcnt, hd, if_pos rfl, hsidx, wrap_succ_formula]
      · have hd : decide (gv.mType = VarType.STATE) = false := by
          simp [hstt]
        have hcnt : (s.log ++
            [(⟨v, decide (gv.mType = VarType.STATE), gv.mIndex⟩ :
              IdxWrite)]).countP IdxWrite.isState =
            s.log.countP IdxWrite.isState := by
          rw [List.countP_append]
          simp [List.countP_cons, IdxWrite.isState, hd]
        rw [hcnt, hd, if_neg (by simp), hsidx]
    · by_cases hstt : gv.mType = VarType.STATE
      · have hd : decide (gv.mType = VarType.STATE) = true := by
          simp [hstt]
        have hcnt : (s.log ++
            [(⟨v, decide (gv.mType = VarType.STATE), gv.mIndex⟩ :
              IdxWrite)]).countP (fun w => !w.isState) =
            s.log.countP (fun w => !w.isState) := by
          rw [List.countP_append]
          simp [List.countP_cons, hd]
        rw [hcnt, hd, if_pos rfl, hvidx]
      · have hd : decide (gv.mType = VarType.STATE) = false := by
          simp [hstt]
        have hcnt : (s.log ++
            [(⟨v, decide (gv.mType = VarType.STATE), gv.mIndex⟩ :
              IdxWrite)]).countP (fun w => !w.isState) =
            s.log.countP (fun w => !w.isState) + 1 := by
          rw [List.countP_append]
          simp [List.countP_cons, hd]
        rw [hcnt, hd, if_neg (by simp), hvidx, wrap_succ_formula]
    · by_cases hstt : gv.mType = VarType.STATE
      · have hd : decide (gv.mType = VarType.STATE) = true := by
          simp [hstt]
        have hfl : (s.log ++
            [(⟨v, decide (gv.mType = VarType.STATE), gv.mIndex⟩ :
              IdxWrite)]).filter IdxWrite.isState =
            s.log.filter IdxWrite.isState ++
              [⟨v, decide (gv.mType = VarType.STATE), gv.mIndex⟩] := by
          rw [List.filter_append]
          simp [List.filter_cons, IdxWrite.isState, hd]
        have hcnt : (s.log ++
            [(⟨v, decide (gv.mType = VarType.STATE), gv.mIndex⟩ :
              IdxWrite)]).countP IdxWrite.isState =
            s.log.countP IdxWrite.isState + 1 := by
          rw [List.countP_append]
          simp [List.countP_cons, IdxWrite.isState, hd]
        rw [hfl, hcnt, List.map_append, hsval]
        have hscw : s.log.countP IdxWrite.isState < WORD := by omega
        have hval : gv.mIndex = s.log.countP IdxWrite.isState := by
          rw [hgi, hd, if_pos rfl, hsidx, wrap_succ _ hscw]
        simp only [List.map_cons, List.map_nil]
        rw [hval, List.range_succ]
      · have hd : decide (gv.mType = VarType.STATE) = false := by
          simp [hstt]
        have hfl : (s.log ++
            [(⟨v, decide (gv.mType = VarType.STATE), gv.mIndex⟩ :
              IdxWrite)]).filter IdxWrite.isState =
            s.log.filter IdxWrite.isState := by
          rw [List.filter_append]
          simp [List.filter_cons, IdxWrite.isState, hd]
        have hcnt : (s.log ++
            [(⟨v, decide (gv.mType = VarType.STATE), gv.mIndex⟩ :
              IdxWrite)]).countP IdxWrite.isState =
            s.log.countP IdxWrite.isState := by
          rw [List.countP_append]
          simp [List.countP_cons, IdxWrite.isState, hd]
        rw [hfl, hcnt]
        exact hsval
    · by_cases hstt : gv.mType = VarType.STATE
      · have hd : decide (gv.mType = VarType.STATE) = true := by
          simp [hstt]
        have hfl : (s.log ++
            [(⟨v, decide (gv.mType = VarType.STATE), gv.mIndex⟩ :
              IdxWrite)]).filter (fun w => !w.isState) =
            s.log.filter (fun w => !w.isState) := by
          rw [List.filter_append]
          simp [List.filter_cons, hd]
        have hcnt : (s.log ++
            [(⟨v, decide (gv.mType = VarType.STATE), gv.mIndex⟩ :
              IdxWrite)]).countP (fun w => !w.isState) =
            s.log.countP (fun w => !w.isState) := by
          rw [List.countP_append]
          simp [List.countP_cons, hd]
        rw [hfl, hcnt]
        exact hvval
      · have hd : decide (gv.mType = VarType.STATE) = false := by
          simp [hstt]
        have hfl : (s.log ++
            [(⟨v, decide (gv.mType = VarType.STATE), gv.mIndex⟩ :
              IdxWrite)]).filter (fun w => !w.isState) =
            s.log.filter (fun w => !w.isState) ++
              [⟨v, decide (gv.mType = VarType.STATE), gv.mIndex⟩] := by
          rw [List.filter_append]
          simp [List.filter_cons, hd]
        have hcnt : (s.log ++
            [(⟨v, decide (gv.mType = VarType.STATE), gv.mIndex⟩ :
              IdxWrite)]).countP (fun w => !w.isState) =
            s.log.countP (fun w => !w.isState) + 1 := by
          rw [List.countP_append]
          simp [List.countP_cons, hd]
        rw [hfl, hcnt, List.map_append, hvval]
        have hvcw : s.log.countP (fun w => !w.isState) < WORD := by omega
        have hval : gv.mIndex = s.log.countP (fun w => !w.isState) := by
          rw [hgi, hd, if_neg (by simp), hvidx, wrap_succ _ hvcw]
        simp only [List.map_cons, List.map_nil]
        rw [hval, List.range_succ]


/-- One causalization pass preserves the index-write invariant, the
store's length and the reference bounds of every equation. -/
theorem runPassAux_LogInv (eqs : List GeneratorEquationImpl) :
    ∀ cs : CausalState,
      LogInv cs.store cs.log cs.stateIndex cs.variableIndex →
      (∀ eq ∈ eqs, RefsBound eq cs.store.length) →
      cs.store.length < WORD →
      LogInv (runPassAux eqs cs).2.1.store (runPassAux eqs cs).2.1.log
        (runPassAux eqs cs).2.1.stateIndex
        (runPassAux eqs cs).2.1.variableIndex ∧
      (runPassAux eqs cs).2.1.store.length = cs.store.length ∧
      (∀ eq ∈ (runPassAux eqs cs).1, RefsBound eq cs.store.length) := by
  induction eqs with
  | nil =>
    intro cs h _ _
    exact ⟨h, rfl, by simp [runPassAux]⟩
  | cons e es ih =>
    intro cs hinv hb hW
    rcases hc : e.check cs with ⟨e', cs', r⟩
    have hC := check_LogInv e cs hinv (hb e (List.mem_cons_self e es)) hW
    rw [hc] at hC
    simp only [] at hC
    obtain ⟨hinv', hlen', hb'⟩ := hC
    rcases hp : runPassAux es cs' with ⟨es2, cs2, r2⟩
    have hIH := ih cs' hinv'
      (fun eq heq => by
        rw [hlen']
        exact hb eq (List.mem_cons_of_mem e heq))
      (by rw [hlen']; exact hW)
    rw [hp] at hIH
    simp only [] at hIH
    obtain ⟨hI1, hI2, hI3⟩ := hIH
    simp only [runPassAux, hc, hp]
    refine ⟨hI1, by rw [hI2, hlen'], ?_⟩
    intro eq heq
    rcases List.mem_cons.mp heq with rfl | hmem
    · exact hb'
    · have := hI3 eq hmem
      rw [hlen'] at this
      exact this

/-- The causalization loop preserves the index-write invariant. -/
theorem causalLoop_LogInv (fuel : Nat) :
    ∀ (eqs : List GeneratorEquationImpl) (cs : CausalState),
      LogInv cs.store cs.log cs.stateIndex cs.variableIndex →
      (∀ eq ∈ eqs, RefsBound eq cs.store.length) →
      cs.store.length < WORD →
      LogInv (causalLoop fuel eqs cs).2.store
        (causalLoop fuel eqs cs).2.log
        (causalLoop fuel eqs cs).2.stateIndex
        (causalLoop fuel eqs cs).2.variableIndex := by
  induction fuel with
  | zero => intro eqs cs h _ _; exact h
  | succ fuel ih =>
    intro eqs cs hinv hb hW
    rcases hp : runPassAux eqs cs with ⟨eqs2, cs2, rel⟩
    have hP := runPassAux_LogInv eqs cs hinv hb hW
    rw [hp] at hP
    simp only [] at hP
    obtain ⟨hinv2, hlen2, hb2⟩ := hP
    simp only [causalLoop, hp]
    by_cases hrel : rel = true
    · rw [if_pos hrel]
      exact ih eqs2 cs2 hinv2
        (fun eq heq => by rw [hlen2]; exact hb2 eq heq)
        (by rw [hlen2]; exact hW)
    · rw [if_neg hrel]
      exact hinv2

/-- The constant-index loop establishes the index-write invariant for
the state the causalization stage starts from. -/
theorem constIndexPass_LogInv (vs : List GeneratorVariableImpl)
    (hW : vs.length < WORD) :
    LogInv (constIndexPass 0 vs MAX_SIZE_T).1
      (constIndexPass 0 vs MAX_SIZE_T).2.2 MAX_SIZE_T
      (constIndexPass 0 vs MAX_SIZE_T).2.1 ∧
    (constIndexPass 0 vs MAX_SIZE_T).1.length = vs.length := by
  obtain ⟨hl, hlen, hwf, hpw, hcf⟩ := constIndexPass_spec vs 0 MAX_SIZE_T
  have hMlt : MAX_SIZE_T < WORD := by decide
  obtain ⟨hc1, hc2⟩ := hcf hMlt
  have hallns : ∀ w ∈ (constIndexPass 0 vs MAX_SIZE_T).2.2,
      w.isState = false := fun w hw' => (hwf w hw').2.2.1
  have hcnt0 : (constIndexPass 0 vs MAX_SIZE_T).2.2.countP
      IdxWrite.isState = 0 :=
    List.countP_eq_zero.mpr fun w hw' => by simp [hallns w hw']
  have hcntall : (constIndexPass 0 vs MAX_SIZE_T).2.2.countP
      (fun w => !w.isState) =
      (constIndexPass 0 vs MAX_SIZE_T).2.2.length :=
    List.countP_eq_length.mpr fun w hw' => by simp [hallns w hw']
  refine ⟨⟨?_, ?_, ?_, ?_, ?_, ?_⟩, hl⟩
  · exact List.Pairwise.map _ (fun a b hab => Nat.ne_of_lt hab) hpw
  · intro w hw'
    obtain ⟨h0, h1, h2, h3⟩ := hwf w hw'
    rw [Nat.sub_zero] at h3
    refine ⟨by rw [hl]; simpa using h1, Or.inl ?_⟩
    simpa [getVar] using h3
  · rw [hcnt0, Nat.add_zero, Nat.mod_eq_of_lt hMlt]
  · rw [hcntall]
    exact hc1
  · have hf0 : (constIndexPass 0 vs MAX_SIZE_T).2.2.filter
        IdxWrite.isState = [] :=
      List.filter_eq_nil_iff.mpr fun w hw' => by simp [hallns w hw']
    rw [hf0, hcnt0]
    rfl
  · have hfeq : (constIndexPass 0 vs MAX_SIZE_T).2.2.filter
        (fun w => !w.isState) = (constIndexPass 0 vs MAX_SIZE_T).2.2 :=
      List.filter_eq_self.mpr fun w hw' => by simp [hallns w hw']
    rw [hfeq, hcntall, hc2]
    have hpt : ∀ k ∈ List.range
        (constIndexPass 0 vs MAX_SIZE_T).2.2.length,
        (MAX_SIZE_T + 1 + k) % WORD = k := by
      intro k hk
      have hklt := List.mem_range.mp hk
      have hkW : k < WORD := by omega
      have harr : MAX_SIZE_T + 1 + k = WORD + k := by
        have h1 : MAX_SIZE_T + 1 = WORD := by decide
        omega
      rw [harr, Nat.add_mod_left, Nat.mod_eq_of_lt hkW]
    have hmapped := List.map_congr_left hpt
    rw [hmapped]
    simp


/-- C7: over a whole run (the unconditional constant-index loop followed,
when no error was recorded, by the causalization fixpoint), every
variable record receives an index at most once — the logged store
positions are pairwise distinct — and the values drawn for state
assignments and for non-state assignments are each exactly 0, 1, 2, ...
in order: two independent counters, each starting at the maximum size_t
value, pre-incremented so the first assigned index is 0 by wrap-around. -/
theorem variable_index_assigned_once (s : ProcState)
    (hlog : s.log = [])
    (hW : s.mVariables.length < WORD)
    (hrefs : ∀ eq ∈ s.mEquations, RefsBound eq s.mVariables.length) :
    ((processModelCore s).log.map IdxWrite.varId).Nodup ∧
    ((processModelCore s).log.filter IdxWrite.isState).map IdxWrite.value
      = List.range
        (((processModelCore s).log.filter IdxWrite.isState).length) ∧
    ((processModelCore s).log.filter (fun w => !w.isState)).map
        IdxWrite.value
      = List.range
        (((processModelCore s).log.filter (fun w => !w.isState)).length)
    := by
  rcases hc : constIndexPass 0 s.mVariables MAX_SIZE_T
    with ⟨vars', vi, clog⟩
  have hCI := constIndexPass_LogInv s.mVariables hW
  rw [hc] at hCI
  simp only [] at hCI
  obtain ⟨hinv0, hlen0⟩ := hCI
  by_cases he : s.errorCount = 0
  · simp only [processModelCore, hc, he, if_true]
    rcases hl : causalLoop (s.mEquations.length + 1) s.mEquations
      { store := vars'
        equationOrder := 0
        stateIndex := MAX_SIZE_T
        variableIndex := vi
        log := s.log ++ clog } with ⟨eqs', cs'⟩
    have hinv0' : LogInv vars' (s.log ++ clog) MAX_SIZE_T vi := by
      rw [hlog, List.nil_append]
      exact hinv0
    have hloop := causalLoop_LogInv (s.mEquations.length + 1)
      s.mEquations
      { store := vars'
        equationOrder := 0
        stateIndex := MAX_SIZE_T
        variableIndex := vi
        log := s.log ++ clog }
      hinv0'
      (fun eq heq => by
        show RefsBound eq vars'.length
        rw [hlen0]
        exact hrefs eq heq)
      (by show vars'.length < WORD; rw [hlen0]; exact hW)
    rw [hl] at hloop
    simp only [] at hloop
    obtain ⟨hnd, -, -, -, hsv, hvv⟩ := hloop
    refine ⟨hnd, ?_, ?_⟩
    · show (cs'.log.filter IdxWrite.isState).map IdxWrite.value =
        List.range ((cs'.log.filter IdxWrite.isState).length)
      rw [hsv, List.countP_eq_length_filter]
    · show (cs'.log.filter (fun w => !w.isState)).map IdxWrite.value =
        List.range ((cs'.log.filter (fun w => !w.isState)).length)
      rw [hvv, List.countP_eq_length_filter]
  · simp only [processModelCore, hc, he, if_false]
    obtain ⟨hnd, -, -, -, hsv, hvv⟩ := hinv0
    have hlogeq : s.log ++ clog = clog := by rw [hlog, List.nil_append]
    refine ⟨?_, ?_, ?_⟩
    · show ((s.log ++ clog).map IdxWrite.varId).Nodup
      rw [hlogeq]
      exact hnd
    · show (((s.log ++ clog).filter IdxWrite.isState).map IdxWrite.value)
        = List.range (((s.log ++ clog).filter IdxWrite.isState).length)
      rw [hlogeq, hsv, List.countP_eq_length_filter]
    · show (((s.log ++ clog).filter (fun w => !w.isState)).map
          IdxWrite.value)
        = List.range (((s.log ++ clog).filter
          (fun w => !w.isState)).length)
      rw [hlogeq, hvv, List.countP_eq_length_filter]

/-- Witness: the at-most-once indexing theorem applies to a concrete run
with one constant and one resolved algebraic variable. -/
theorem variable_index_assigned_once_witness :
    (gOrders.log = [] ∧ gOrders.mVariables.length < WORD ∧
      ∀ eq ∈ gOrders.mEquations, RefsBound eq gOrders.mVariables.length) ∧
    (((processModelCore gOrders).log.map IdxWrite.varId).Nodup ∧
    ((processModelCore gOrders).log.filter IdxWrite.isState).map
        IdxWrite.value
      = List.range
        (((processModelCore gOrders).log.filter IdxWrite.isState).length) ∧
    ((processModelCore gOrders).log.filter (fun w => !w.isState)).map
        IdxWrite.value
      = List.range
        (((processModelCore gOrders).log.filter
          (fun w => !w.isState)).length)) :=
  ⟨⟨rfl, by decide, by decide⟩,
    variable_index_assigned_once gOrders rfl (by decide) (by decide)⟩

end LibCellML
